import Mathlib

/-!
# md-mmd-pdf: page-break normalisation and the conversion pipeline

A shallow embedding of `src/lib/page-breaks.js`, `src/lib/pipeline.js`,
`src/lib/command-runner.mjs`, `src/lib/config-loader.js`, `src/lib/errors.js`
and `src/lib/args.mjs`.

The Markdown text of `page-breaks.js` is modelled as `List Char`.  None of
its regular expressions carries the `u` flag and none of them can match a
surrogate code unit, so working with code points instead of UTF-16 code
units does not change which lines match.  Where lengths matter
(`trimToSingleLine` of `errors.js`) strings are lists of UTF-16 code units.

Awaited operations are functions of an explicit file system.  What the code
takes from outside the repository (the `path` module, `mkdir`, `readFile`,
`writeFile`, the child process, `md-to-pdf`, `JSON`) is a parameter, `Env`;
`stat` and `rm` are modelled on the file system, and `rm` is refused when
the environment says so (`Env.rmFault`).  Output written to the terminal
under `verbose` is not modelled.
-/

namespace MdMmdPdf

/-! ## Strings and the regular-expression building blocks -/

/-- A JavaScript string. -/
abbrev Str := List Char

/-- The backtick character. -/
def backtick : Char := '\x60'

/-- The tilde character. -/
def tilde : Char := '~'

/-- The character class `\s` of ECMAScript regular expressions: the union of
`WhiteSpace` (TAB, VT, FF, SP, NBSP, ZWNBSP and the category `Zs`) and
`LineTerminator` (LF, CR, LS, PS). -/
def isJsSpace (c : Char) : Bool :=
  c.toNat = 0x09 || c.toNat = 0x0A || c.toNat = 0x0B || c.toNat = 0x0C ||
  c.toNat = 0x0D || c.toNat = 0x20 || c.toNat = 0xA0 || c.toNat = 0x1680 ||
  (0x2000 ≤ c.toNat && c.toNat ≤ 0x200A) ||
  c.toNat = 0x2028 || c.toNat = 0x2029 || c.toNat = 0x202F ||
  c.toNat = 0x205F || c.toNat = 0x3000 || c.toNat = 0xFEFF

/-- The character class of the fence regular expression: backtick or tilde. -/
def isFenceChar (c : Char) : Bool :=
  c = backtick || c = tilde

/-- ASCII lower-casing.  Without the `u` flag the `i` flag compares
characters after `toUpperCase`, and a character outside ASCII is never
identified with an ASCII one, so for the ASCII letters of `pagebreak` the
comparison is ASCII case folding. -/
def asciiLower (c : Char) : Char :=
  if 65 ≤ c.toNat ∧ c.toNat ≤ 90 then Char.ofNat (c.toNat + 32) else c

/-- Strip a literal from the front of a string (one fixed-text regex atom). -/
def stripLit : Str → Str → Option Str
  | [], s => some s
  | _ :: _, [] => none
  | p :: ps, c :: cs => if p = c then stripLit ps cs else none

/-- Strip a literal from the front of a string, ignoring ASCII case. -/
def stripLitNoCase : Str → Str → Option Str
  | [], s => some s
  | _ :: _, [] => none
  | p :: ps, c :: cs =>
    if asciiLower p = asciiLower c then stripLitNoCase ps cs else none

/-! ## `page-breaks.js` -/

/-- The constant `PAGE_BREAK_REPLACEMENT`. -/
def PAGE_BREAK_REPLACEMENT : Str := "<div class=\"page-break\"></div>".toList

/-- The test `/^\s*\\newpage\s*$/`: leading white space, the token, trailing
white space.  The token starts with a backslash, which is not white space,
so the greedy `\s*` has exactly one way to match. -/
def isNewpageLine (line : Str) : Bool :=
  match stripLit "\\newpage".toList (line.dropWhile isJsSpace) with
  | some rest => rest.all isJsSpace
  | none => false

/-- The test `/^\s*<!--\s*pagebreak\s*-->\s*$/i`.  Every literal piece starts
with a character that is not white space, so each `\s*` consumes the whole
run of white space in front of it. -/
def isCommentLine (line : Str) : Bool :=
  match stripLit "<!--".toList (line.dropWhile isJsSpace) with
  | none => false
  | some r1 =>
    match stripLitNoCase "pagebreak".toList (r1.dropWhile isJsSpace) with
    | none => false
    | some r2 =>
      match stripLit "-->".toList (r2.dropWhile isJsSpace) with
      | none => false
      | some r3 => r3.all isJsSpace

/-- The function `isPageBreakMarker`. -/
def isPageBreakMarker (line : Str) : Bool :=
  isNewpageLine line || isCommentLine line

/-- The result object of `parseFence`. -/
structure Fence where
  char : Char
  length : Nat
deriving DecidableEq, Repr

/-- The function `parseFence`: the regular expression `/^\s*([\x60~]{3,})/`
captures the maximal run of backticks and tildes (in any mixture) after the
leading white space; `char` is the first character of the run and `length`
the length of the whole run. -/
def parseFence (line : Str) : Option Fence :=
  let token := (line.dropWhile isJsSpace).takeWhile isFenceChar
  if token.length < 3 then none
  else
    match token with
    | [] => none
    | char :: _ =>
      if char ≠ backtick ∧ char ≠ tilde then none
      else some ⟨char, token.length⟩

/-- The three variables `inFence`, `fenceChar`, `fenceLength` that the
callback of `lines.map` closes over.  `fenceChar` is a string: empty, or the
single fence character. -/
structure FenceState where
  inFence : Bool
  fenceChar : Str
  fenceLength : Nat
deriving DecidableEq, Repr

/-- The initial values of the three variables. -/
def FenceState.init : FenceState := ⟨false, [], 0⟩

/-- One call of the callback of `lines.map`: the new values of the variables
and the returned line. -/
def stepLine (st : FenceState) (line : Str) : FenceState × Str :=
  let fence := parseFence line
  if st.inFence then
    match fence with
    | some f =>
      if [f.char] = st.fenceChar ∧ f.length ≥ st.fenceLength then
        (⟨false, [], 0⟩, line)
      else (st, line)
    | none => (st, line)
  else
    match fence with
    | some f => (⟨true, [f.char], f.length⟩, line)
    | none =>
      if isPageBreakMarker line then (st, PAGE_BREAK_REPLACEMENT)
      else (st, line)

/-- The call `lines.map(...)`, with the closed-over variables threaded. -/
def mapLines : FenceState → List Str → List Str
  | _, [] => []
  | st, line :: rest => (stepLine st line).2 :: mapLines (stepLine st line).1 rest

/-- Put a character in front of the first line of a list of lines. -/
def consHead (c : Char) : List Str → List Str
  | [] => [[c]]
  | l :: ls => (c :: l) :: ls

/-- The call `markdown.split(/\r?\n/)`: a line break is LF, or CR directly
followed by LF; a CR directly in front of a LF belongs to the separator. -/
def splitLines : Str → List Str
  | [] => [[]]
  | c :: rest =>
    if c = '\n' then [] :: splitLines rest
    else if c = '\r' ∧ rest.head? = some '\n' then splitLines rest
    else consHead c (splitLines rest)

/-- The call `processed.join("\n")`. -/
def joinLines : List Str → Str
  | [] => []
  | [l] => l
  | l :: l2 :: ls => l ++ '\n' :: joinLines (l2 :: ls)

/-- The test `/\r?\n$/.test(markdown)`: without the `m` flag `$` matches at
the end of the text only. -/
def endsWithNewline (markdown : Str) : Bool :=
  ['\r', '\n'].isSuffixOf markdown || ['\n'].isSuffixOf markdown

/-- The function `normalizePageBreakMarkers`. -/
def normalizePageBreakMarkers (markdown : Str) : Str :=
  let lines := splitLines markdown
  let processed := mapLines FenceState.init lines
  let output := joinLines processed
  if endsWithNewline markdown then output ++ ['\n'] else output

/-! ## Notions used to state the properties of the normaliser -/

/-- Does the text contain a CR directly followed by LF? -/
def hasCRLF : Str → Bool
  | [] => false
  | c :: rest => (c = '\r' ∧ rest.head? = some '\n') || hasCRLF rest

/-- The text with every CR LF line break written as LF. -/
def crlfToLf : Str → Str
  | [] => []
  | c :: rest =>
    if c = '\r' ∧ rest.head? = some '\n' then crlfToLf rest else c :: crlfToLf rest

/-- The values of the three variables after the callback has run on every
line of a list, starting from `st`. -/
def stateAfter : FenceState → List Str → FenceState
  | st, [] => st
  | st, line :: rest => stateAfter (stepLine st line).1 rest

/-- The value of `inFence` that the callback finds when it reaches line
number `i` (from 0): the fence tracking of the code, not that of the
specification (`specInsideFence`). -/
def insideFenceAt (lines : List Str) (i : Nat) : Bool :=
  (stateAfter FenceState.init (lines.take i)).inFence

/-- A string of white space only. -/
def IsBlank (s : Str) : Prop := ∀ c ∈ s, isJsSpace c = true

/-- The canonical marker: the token `\newpage` with white space around it. -/
def IsNewpageForm (line : Str) : Prop :=
  ∃ a b : Str, IsBlank a ∧ IsBlank b ∧ line = a ++ "\\newpage".toList ++ b

/-- The comment marker: `<!--`, the word `pagebreak` in any mixture of upper
and lower case, `-->`, with optional white space between and around them. -/
def IsCommentForm (line : Str) : Prop :=
  ∃ a b c d w : Str, IsBlank a ∧ IsBlank b ∧ IsBlank c ∧ IsBlank d ∧
    w.map asciiLower = "pagebreak".toList ∧
    line = a ++ "<!--".toList ++ b ++ w ++ c ++ "-->".toList ++ d

/-- A marker line, as the specification describes it. -/
def IsMarkerLine (line : Str) : Prop :=
  IsNewpageForm line ∨ IsCommentForm line

/-- The number of places of a text at which `pat` occurs. -/
def countOcc (pat : Str) : Str → Nat
  | [] => if pat.isPrefixOf [] then 1 else 0
  | c :: cs => (if pat.isPrefixOf (c :: cs) then 1 else 0) + countOcc pat cs

/-- The number of marker lines that the callback reaches with `inFence` not
set: the count in the fence tracking of the code. -/
def markerLinesOutsideFences (lines : List Str) : Nat :=
  (List.range lines.length).countP
    (fun i => !insideFenceAt lines i && isPageBreakMarker (lines.getD i []))

/-! ## Fences as the specification words them -/

/-- A fence run: after optional indentation the line begins with three or
more consecutive copies of one fence character; the character and the
number of its consecutive copies. -/
def specFenceRun (line : Str) : Option (Char × Nat) :=
  match line.dropWhile isJsSpace with
  | [] => none
  | c :: rest =>
    if isFenceChar c = true ∧ 3 ≤ ((c :: rest).takeWhile (fun x => x == c)).length then
      some (c, ((c :: rest).takeWhile (fun x => x == c)).length)
    else none

/-- Fence tracking in the words of the specification: outside a fence a
fence run opens one and records its character and length; inside, only a
line that begins with at least that many copies of the same character
closes it. -/
def specStep (open? : Option (Char × Nat)) (line : Str) : Option (Char × Nat) :=
  match open? with
  | none => specFenceRun line
  | some (c, n) =>
    match specFenceRun line with
    | some (c2, k) => if c2 = c ∧ n ≤ k then none else some (c, n)
    | none => some (c, n)

/-- Line number `i` (from 0) lies inside a fence, in the words of the
specification: a fence is open when the lines before it have been read. -/
def specInsideFence (lines : List Str) (i : Nat) : Bool :=
  ((lines.take i).foldl specStep none).isSome

/-- The number of marker lines outside fences, in the words of the
specification. -/
def specMarkersOutsideFences (lines : List Str) : Nat :=
  (List.range lines.length).countP
    (fun i => !specInsideFence lines i && isPageBreakMarker (lines.getD i []))

/-! ## `errors.js` -/

/-- A JavaScript value that is thrown, or recorded as the `cause` of an
`AppError`: `undefined`, an `Error` that is not an `AppError` (the system
errors of Node), or an instance of the class `AppError` with its fields. -/
inductive Thrown where
  | undefined : Thrown
  | error (message : String) : Thrown
  | appError (message stage : String) (command : Option String) (exitCode : Option Int)
      (stderr : Option String) (cause : Thrown) : Thrown
deriving DecidableEq, Repr

/-- The function `isAppError`. -/
def isAppError : Thrown → Bool
  | .appError _ _ _ _ _ _ => true
  | _ => false

/-- The field `stage` of a thrown value, when it has one. -/
def Thrown.stage : Thrown → Option String
  | .appError _ stage _ _ _ _ => some stage
  | _ => none

/-- The property `message` of a thrown value (empty for `undefined`). -/
def Thrown.message : Thrown → String
  | .undefined => ""
  | .error message => message
  | .appError message _ _ _ _ _ => message

/-- The stage tags of the pipeline. -/
def STAGES : List String :=
  ["validate-input", "load-config", "mermaid-render", "prepare-markdown", "pdf-render"]

/-! ## The file system and the environment of `pipeline.js` -/

/-- A path of the file system. -/
abbrev Path := String

/-- What a path holds. -/
inductive Node where
  | file (content : Str) : Node
  | dir : Node
deriving DecidableEq, Repr

/-- The file system: what each path holds, if anything. -/
abbrev FS := Path → Option Node

/-- An awaited operation: it settles with a value or a thrown value, and
leaves a file system. -/
abbrev Eff (α : Type) := FS → Except Thrown α × FS

/-- Sequencing of awaited operations: a rejection stops the sequence. -/
def Eff.andThen {α β : Type} (m : Eff α) (f : α → Eff β) : Eff β := fun fs =>
  match m fs with
  | (Except.ok a, fs1) => f a fs1
  | (Except.error e, fs1) => (Except.error e, fs1)

/-- The path `q` lies below the directory `p`. -/
def isBelow (p q : Path) : Bool := (p.toList ++ ['/']).isPrefixOf q.toList

/-- The call `stat(path)` followed by `isFile()`: rejects when nothing is at
the path. -/
def stat (path : Path) (fs : FS) : Except Thrown Bool :=
  match fs path with
  | none => Except.error (Thrown.error "ENOENT: no such file or directory")
  | some (Node.file _) => Except.ok true
  | some Node.dir => Except.ok false

/-- The call `Promise.all(ops)`: every operation runs; the result is the
first rejection, if there is one. -/
def promiseAll : List (Eff Unit) → Eff Unit
  | [] => fun fs => (Except.ok (), fs)
  | m :: ms => fun fs =>
    match m fs with
    | (r, fs1) =>
      match promiseAll ms fs1 with
      | (r2, fs2) =>
        (match r with
          | Except.error e => Except.error e
          | Except.ok _ => r2, fs2)

/-- A value of a configuration object: a string, or anything else. -/
inductive JsVal where
  | str (s : String) : JsVal
  | other (id : Nat) : JsVal
deriving DecidableEq, Repr

/-- A plain object: the value of each property, if present. -/
abbrev JsObject := String → Option JsVal

/-- How the child process started by `spawn` ends: the event `error`, or
the event `close` with the exit code (`none` for `null`); with the text
captured from its output streams. -/
inductive ChildOutcome where
  | failedToStart (cause : Thrown) (stderr : String) : ChildOutcome
  | closed (code : Option Int) (stdout stderr : String) : ChildOutcome

/-- What `import("md-to-pdf")` gives: a rejection, a module whose
`mdToPdf ?? default` is not a function, or a module with the function. -/
inductive ImportOutcome where
  | failed (cause : Thrown) : ImportOutcome
  | notCallable : ImportOutcome
  | callable : ImportOutcome

/-- What `JSON.parse` returns. -/
inductive Parsed where
  | plainObject (o : JsObject) : Parsed
  | notPlainObject : Parsed

/-- What `import(url)` of a configuration module gives: its `default`
export (absent, a plain object, or another value) and the namespace object
itself. -/
structure ConfigModule where
  hasDefault : Bool
  defaultExport : Parsed
  namespaceObject : JsObject

/-- Everything `pipeline.js`, `command-runner.js` and `config-loader.js`
take from outside the repository: the functions of `path`, the location of
the package, the operations of `fs/promises` whose outcome the code does not
determine, the child process, and the library `md-to-pdf`.  `rmFault` tells
when the operating system refuses a removal: the error `rm` rejects with,
and which paths a recursive removal had already taken away. -/
structure Env where
  resolve : String → Path
  dirname : Path → Path
  parseName : Path → String
  join : List String → Path
  extname : Path → String
  packageRoot : Path
  execPath : String
  mkdir : Path → Eff Unit
  readFile : Path → Eff Str
  writeFile : Path → Str → Eff Unit
  spawn : String → List String → FS → ChildOutcome × FS
  importMdToPdf : ImportOutcome
  mdToPdf : Path → JsObject → Eff Unit
  jsonParse : Str → Except Thrown Parsed
  importConfig : Path → Eff ConfigModule
  jsonStringify : String → String
  rmFault : Path → Bool → FS → Option (Thrown × (Path → Bool))

/-- The call `rm(path, \x7b recursive, force \x7d)` of `fs/promises`.  When the
operating system objects (`env.rmFault`: no permission, a busy file, a name
that is too long) the call rejects, and of a recursive removal some of what
lies at or below the path may already be gone.  Otherwise a missing path is
an error unless `force`; a directory is an error unless `recursive`; else
the path, and with `recursive` everything below it, is removed. -/
def rm (env : Env) (path : Path) (recursive force : Bool) : Eff Unit := fun fs =>
  match env.rmFault path recursive fs with
  | some (error, removed) =>
    (Except.error error, fun q =>
      if recursive = true ∧ (q = path ∨ isBelow path q = true) ∧ removed q = true then none
      else fs q)
  | none =>
    match fs path with
    | none =>
      if force then (Except.ok (), fs)
      else (Except.error (Thrown.error "ENOENT: no such file or directory"), fs)
    | some Node.dir =>
      if recursive then
        (Except.ok (), fun q => if q = path ∨ isBelow path q = true then none else fs q)
      else (Except.error (Thrown.error "ERR_FS_EISDIR: Path is a directory"), fs)
    | some (Node.file _) =>
      (Except.ok (), fun q => if q = path then none else fs q)

/-- Truthiness of an optional string: present and not empty. -/
def isTruthy : Option String → Bool
  | some s => s ≠ ""
  | none => false

/-- The text `String(cause)` or `cause.message` used in messages. -/
def Thrown.describe : Thrown → String
  | .undefined => "undefined"
  | .error message => message
  | .appError message _ _ _ _ _ => message

/-! ## `command-runner.js` -/

/-- The class `[A-Za-z0-9_./:@=-]` of `quoteArg`. -/
def isSafeArgChar (c : Char) : Bool :=
  c.isAlphanum || c = '_' || c = '.' || c = '/' || c = ':' || c = '@' || c = '=' || c = '-'

/-- The function `quoteArg`. -/
def quoteArg (env : Env) (arg : String) : String :=
  if arg ≠ "" ∧ arg.toList.all isSafeArgChar = true then arg else env.jsonStringify arg

/-- The function `formatCommand`. -/
def formatCommand (env : Env) (command : String) (args : List String) : String :=
  " ".intercalate (quoteArg env command :: args.map (quoteArg env))

/-- The function `runCommand`: the promise settles on the first of the
events `error` and `close`.  The echo to the terminal under `verbose` is
not modelled. -/
def runCommand (env : Env) (command : String) (args : List String) (stage : String) :
    Eff (String × String) := fun fs =>
  match env.spawn command args fs with
  | (ChildOutcome.failedToStart cause stderr, fs1) =>
    (Except.error (Thrown.appError ("Failed to start command: " ++ cause.message) stage
      (some (formatCommand env command args)) none (some stderr) cause), fs1)
  | (ChildOutcome.closed code stdout stderr, fs1) =>
    if code ≠ some 0 then
      (Except.error (Thrown.appError "Command exited with a non-zero status" stage
        (some (formatCommand env command args)) code (some stderr) Thrown.undefined), fs1)
    else (Except.ok (stdout, stderr), fs1)

/-! ## `config-loader.js` -/

/-- The body of the `try` of `loadMdToPdfConfig`. -/
def loadConfigBody (env : Env) (absolutePath : Path) : Eff JsObject := fun fs =>
  if (env.extname absolutePath).map asciiLower = ".json" then
    match env.readFile absolutePath fs with
    | (Except.error e, fs1) => (Except.error e, fs1)
    | (Except.ok json, fs1) =>
      match env.jsonParse json with
      | Except.error e => (Except.error e, fs1)
      | Except.ok Parsed.notPlainObject =>
        (Except.error (Thrown.error "Config JSON must contain an object"), fs1)
      | Except.ok (Parsed.plainObject o) => (Except.ok o, fs1)
  else
    match env.importConfig absolutePath fs with
    | (Except.error e, fs1) => (Except.error e, fs1)
    | (Except.ok imported, fs1) =>
      match imported.defaultExport with
      | Parsed.plainObject o => (Except.ok o, fs1)
      | Parsed.notPlainObject =>
        if imported.hasDefault = false then (Except.ok imported.namespaceObject, fs1)
        else (Except.error (Thrown.error "Config module must export an object"), fs1)

/-- The function `loadMdToPdfConfig`. -/
def loadMdToPdfConfig (env : Env) (configPath : Option String) : Eff JsObject := fun fs =>
  if isTruthy configPath = false then (Except.ok (fun _ => none), fs)
  else
    let absolutePath := env.resolve (configPath.getD "")
    match loadConfigBody env absolutePath fs with
    | (Except.ok o, fs1) => (Except.ok o, fs1)
    | (Except.error cause, fs1) =>
      (Except.error (Thrown.appError
        ("Unable to load config file: " ++ absolutePath ++ ". " ++ cause.describe)
        "load-config" none none none cause), fs1)

/-! ## `pipeline.js` -/

/-- The constant `PAGE_BREAK_CSS`, returned by `getPageBreakCss`. -/
def PAGE_BREAK_CSS : String :=
  ".page-break \x7b\n  break-after: page;\n  page-break-after: always;\n\x7d"

/-- The type `ConvertOptions`. -/
structure ConvertOptions where
  inputPath : String
  outputPath : Option String
  configPath : Option String
  mermaidConfigPath : Option String
  puppeteerConfigPath : Option String
  verbose : Bool
  keepTemp : Bool

/-- The object `convertMarkdownToPdf` resolves with. -/
structure ConvertResult where
  outputPath : Path
  diagramsPath : Path
  transformedMarkdownPath : Path
  keptTemp : Bool
deriving DecidableEq, Repr

/-- The function `ensureInputExists`. -/
def ensureInputExists (inputPath : Path) : Eff Unit := fun fs =>
  match stat inputPath fs with
  | Except.error cause =>
    (Except.error (Thrown.appError ("Input file not found: " ++ inputPath) "validate-input"
      none none none cause), fs)
  | Except.ok isFile =>
    if isFile = false then
      (Except.error (Thrown.appError ("Input path is not a file: " ++ inputPath)
        "validate-input" none none none Thrown.undefined), fs)
    else (Except.ok (), fs)

/-- The function `getMmdcPath`. -/
def getMmdcPath (env : Env) : Eff Path := fun fs =>
  let mmdcPath :=
    env.join [env.packageRoot, "node_modules", "@mermaid-js", "mermaid-cli", "src", "cli.js"]
  let wrap (cause : Thrown) : Thrown :=
    Thrown.appError "Cannot find Mermaid CLI executable at package runtime dependency path"
      "mermaid-render" none none none cause
  match stat mmdcPath fs with
  | Except.error cause => (Except.error (wrap cause), fs)
  | Except.ok isFile =>
    if isFile = false then
      (Except.error (wrap (Thrown.error "Resolved Mermaid CLI entrypoint is not a file")), fs)
    else (Except.ok mmdcPath, fs)

/-- The argument list `commandArgs` of `renderMermaidMarkdown`. -/
def mermaidCommandArgs (env : Env) (mmdcPath inputPath tempMarkdownPath tempArtefactsDir : Path)
    (mermaidConfigPath puppeteerConfigPath : Option String) : List String :=
  [mmdcPath, "-i", inputPath, "-o", tempMarkdownPath, "-a", tempArtefactsDir, "-e", "svg"]
    ++ (if isTruthy mermaidConfigPath = true
          then ["-c", env.resolve (mermaidConfigPath.getD "")] else [])
    ++ (if isTruthy puppeteerConfigPath = true
          then ["-p", env.resolve (puppeteerConfigPath.getD "")] else [])

/-- The function `renderMermaidMarkdown`. -/
def renderMermaidMarkdown (env : Env) (inputPath tempMarkdownPath tempArtefactsDir : Path)
    (mermaidConfigPath puppeteerConfigPath : Option String) : Eff Unit :=
  Eff.andThen (getMmdcPath env) fun mmdcPath =>
  Eff.andThen (runCommand env env.execPath
    (mermaidCommandArgs env mmdcPath inputPath tempMarkdownPath tempArtefactsDir
      mermaidConfigPath puppeteerConfigPath) "mermaid-render") fun _ =>
  fun fs => (Except.ok (), fs)

/-- The function `applyPageBreakMarkers`. -/
def applyPageBreakMarkers (env : Env) (markdownPath : Path) : Eff Unit := fun fs =>
  let wrap (cause : Thrown) : Thrown :=
    Thrown.appError "Failed to normalize page break markers" "prepare-markdown"
      none none none cause
  match env.readFile markdownPath fs with
  | (Except.error cause, fs1) => (Except.error (wrap cause), fs1)
  | (Except.ok markdown, fs1) =>
    let normalized := normalizePageBreakMarkers markdown
    if normalized ≠ markdown then
      match env.writeFile markdownPath normalized fs1 with
      | (Except.error cause, fs2) => (Except.error (wrap cause), fs2)
      | (Except.ok _, fs2) => (Except.ok (), fs2)
    else (Except.ok (), fs1)

/-- The value `mergedCss` of `renderPdf`. -/
def mergedCss (userConfig : JsObject) : String :=
  let userCss : String :=
    match userConfig "css" with
    | some (JsVal.str s) => s
    | _ => ""
  "\n\n".intercalate ([PAGE_BREAK_CSS, userCss].filter (fun s => s ≠ ""))

/-- The object `config` of `renderPdf`: the user's properties, then
`basedir`, `dest` and `css`. -/
def pdfConfig (userConfig : JsObject) (basedir outputPath : Path) : JsObject := fun key =>
  if key = "css" then some (JsVal.str (mergedCss userConfig))
  else if key = "dest" then some (JsVal.str outputPath)
  else if key = "basedir" then some (JsVal.str basedir)
  else userConfig key

/-- The function `renderPdf`. -/
def renderPdf (env : Env) (transformedMarkdownPath outputPath basedir : Path)
    (configPath : Option String) : Eff Unit := fun fs =>
  match env.importMdToPdf with
  | ImportOutcome.failed cause =>
    (Except.error (Thrown.appError "Unable to import md-to-pdf" "pdf-render"
      none none none cause), fs)
  | ImportOutcome.notCallable =>
    (Except.error (Thrown.appError "md-to-pdf import did not expose a callable API"
      "pdf-render" none none none Thrown.undefined), fs)
  | ImportOutcome.callable =>
    match loadMdToPdfConfig env configPath fs with
    | (Except.error e, fs1) => (Except.error e, fs1)
    | (Except.ok userConfig, fs1) =>
      match env.mdToPdf transformedMarkdownPath (pdfConfig userConfig basedir outputPath) fs1 with
      | (Except.error cause, fs2) =>
        (Except.error (Thrown.appError "md-to-pdf failed to generate output" "pdf-render"
          none none none cause), fs2)
      | (Except.ok _, fs2) => (Except.ok (), fs2)

/-- The paths `convertMarkdownToPdf` computes before its `try`. -/
structure Workspace where
  inputPath : Path
  inputDir : Path
  outputPath : Path
  tempMarkdownPath : Path
  tempArtefactsDir : Path
deriving DecidableEq, Repr

/-- Lines 24 to 38 of `pipeline.js`; `token` is the text made of
`Date.now()`, `process.pid` and `Math.random()`. -/
def workspace (env : Env) (options : ConvertOptions) (token : String) : Workspace :=
  let inputPath := env.resolve options.inputPath
  let inputDir := env.dirname inputPath
  let inputName := env.parseName inputPath
  { inputPath := inputPath
    inputDir := inputDir
    outputPath :=
      env.resolve (options.outputPath.getD (env.join [inputDir, inputName ++ ".pdf"]))
    tempMarkdownPath := env.join [inputDir, "." ++ inputName ++ ".md-mmd-pdf." ++ token ++ ".md"]
    tempArtefactsDir :=
      env.join [inputDir, "." ++ inputName ++ ".md-mmd-pdf." ++ token ++ ".artefacts"] }

/-- The body of the `try` of `convertMarkdownToPdf`. -/
def tryBody (env : Env) (options : ConvertOptions) (w : Workspace) : Eff ConvertResult :=
  Eff.andThen (env.mkdir w.tempArtefactsDir) fun _ =>
  Eff.andThen (renderMermaidMarkdown env w.inputPath w.tempMarkdownPath w.tempArtefactsDir
    options.mermaidConfigPath options.puppeteerConfigPath) fun _ =>
  Eff.andThen (applyPageBreakMarkers env w.tempMarkdownPath) fun _ =>
  Eff.andThen (renderPdf env w.tempMarkdownPath w.outputPath w.inputDir options.configPath)
    fun _ =>
  fun fs => (Except.ok
    { outputPath := w.outputPath
      diagramsPath := w.tempArtefactsDir
      transformedMarkdownPath := w.tempMarkdownPath
      keptTemp := options.keepTemp }, fs)

/-- The `try` with its `catch`: on a failure the output path is removed and
the failure thrown again; a failure of that `rm` replaces it. -/
def tryCatch (env : Env) (options : ConvertOptions) (w : Workspace) : Eff ConvertResult :=
  fun fs =>
  match tryBody env options w fs with
  | (Except.ok result, fs1) => (Except.ok result, fs1)
  | (Except.error error, fs1) =>
    match rm env w.outputPath false true fs1 with
    | (Except.ok _, fs2) => (Except.error error, fs2)
    | (Except.error e2, fs2) => (Except.error e2, fs2)

/-- The function `convertMarkdownToPdf`: validation, then the `try` with its
`catch`, then the `finally`, whose failure replaces the result. -/
def convertMarkdownToPdf (env : Env) (options : ConvertOptions) (token : String) :
    Eff ConvertResult := fun fs =>
  let w := workspace env options token
  match ensureInputExists w.inputPath fs with
  | (Except.error e, fs0) => (Except.error e, fs0)
  | (Except.ok _, fs0) =>
    match tryCatch env options w fs0 with
    | (r, fs2) =>
      if options.keepTemp = false then
        match promiseAll ([w.tempMarkdownPath, w.tempArtefactsDir].map
            (fun target => rm env target true true)) fs2 with
        | (Except.ok _, fs3) => (r, fs3)
        | (Except.error e3, fs3) => (Except.error e3, fs3)
      else (r, fs2)

/-! ## `errors.js`: `formatError` -/

/-- The UTF-16 code units of a JavaScript string: `length` and `slice` count
and cut code units, and a cut may fall inside a surrogate pair. -/
abbrev Units := List Nat

/-- The code units of a character. -/
def charUnits (c : Char) : Units :=
  if c.toNat < 0x10000 then [c.toNat]
  else [0xD800 + (c.toNat - 0x10000) / 0x400, 0xDC00 + (c.toNat - 0x10000) % 0x400]

/-- The code units of a text. -/
def utf16 (s : String) : Units :=
  s.toList.flatMap charUnits

/-- The class `\s` on code units (all of its characters are single units). -/
def isSpaceUnit (u : Nat) : Bool :=
  u = 0x09 || u = 0x0A || u = 0x0B || u = 0x0C || u = 0x0D || u = 0x20 || u = 0xA0 ||
  u = 0x1680 || (0x2000 ≤ u && u ≤ 0x200A) || u = 0x2028 || u = 0x2029 || u = 0x202F ||
  u = 0x205F || u = 0x3000 || u = 0xFEFF

/-- The call `input.replace(/\s+/g, " ")`: every maximal run of white space
becomes one space.  `inRun` tells that the unit before was white space (the
run has already been replaced). -/
def collapseSpaceRuns : Bool → Units → Units
  | _, [] => []
  | inRun, u :: us =>
    if isSpaceUnit u then
      if inRun then collapseSpaceRuns true us else 0x20 :: collapseSpaceRuns true us
    else u :: collapseSpaceRuns false us

/-- The method `trim`: white space and line terminators (the class `\s`)
are removed from both ends. -/
def jsTrim (s : Units) : Units :=
  ((s.dropWhile isSpaceUnit).reverse.dropWhile isSpaceUnit).reverse

/-- The function `trimToSingleLine`. -/
def trimToSingleLine (input : Units) : Units :=
  let normalized := jsTrim (collapseSpaceRuns false input)
  if normalized.length ≤ 400 then normalized
  else normalized.take 397 ++ utf16 "..."

/-- The array `lines` of `formatError` for an `AppError`. -/
def formatErrorLines (message stage : String) (command : Option String)
    (exitCode : Option Int) (stderr : Option String) : List Units :=
  [utf16 ("Error [" ++ stage ++ "]: " ++ message)]
    ++ (if isTruthy command = true then [utf16 ("Command: " ++ command.getD "")] else [])
    ++ (match exitCode with
        | some code => [utf16 ("Exit code: " ++ toString code)]
        | none => [])
    ++ (if isTruthy stderr = true
        then [utf16 "Details: " ++ trimToSingleLine (utf16 (stderr.getD ""))] else [])

/-- The call `lines.join("\n")`. -/
def joinUnits : List Units → Units
  | [] => []
  | [l] => l
  | l :: l2 :: ls => l ++ 0x0A :: joinUnits (l2 :: ls)

/-- The function `formatError`. -/
def formatError : Thrown → Units
  | Thrown.appError message stage command exitCode stderr _ =>
    joinUnits (formatErrorLines message stage command exitCode stderr)
  | Thrown.error message => utf16 message
  | Thrown.undefined => utf16 "undefined"

/-- The line terminators of ECMAScript: LF, CR, LS, PS. -/
def isLineTerminator (u : Nat) : Bool :=
  u = 0x0A || u = 0x0D || u = 0x2028 || u = 0x2029

/-! ## `args.mjs` -/

/-- The type `CliOptions`. -/
structure CliOptions where
  inputPath : String
  outputPath : Option String
  configPath : Option String
  mermaidConfigPath : Option String
  puppeteerConfigPath : Option String
  verbose : Bool
  keepTemp : Bool
  help : Bool
  version : Bool
deriving DecidableEq, Repr

/-- The initial value of `options` in `parseArgs`. -/
def CliOptions.initial : CliOptions where
  inputPath := ""
  outputPath := none
  configPath := none
  mermaidConfigPath := none
  puppeteerConfigPath := none
  verbose := false
  keepTemp := false
  help := false
  version := false

/-- The test `arg.startsWith("-")`. -/
def startsWithDash (s : String) : Bool :=
  s.toList.head? = some '-'

/-- The test `!value || value.startsWith("-")` on a value that is present. -/
def isBadValue (value : String) : Bool :=
  value = "" || startsWithDash value

/-- The `for` loop of `parseArgs`, from the element at index `i` on: the
list is `argv.slice(i)`.  An option that takes a value reads the next
element and skips it. -/
def parseLoop : CliOptions → List String → List String →
    Except String (CliOptions × List String)
  | options, positionals, [] => Except.ok (options, positionals)
  | options, positionals, arg :: rest =>
    if arg = "-h" ∨ arg = "--help" then
      parseLoop { options with help := true } positionals rest
    else if arg = "-v" ∨ arg = "--version" then
      parseLoop { options with version := true } positionals rest
    else if arg = "--verbose" then
      parseLoop { options with verbose := true } positionals rest
    else if arg = "--keep-temp" then
      parseLoop { options with keepTemp := true } positionals rest
    else if arg = "-o" ∨ arg = "--output" then
      match rest with
      | [] => Except.error ("Missing value for " ++ arg)
      | value :: rest2 =>
        if isBadValue value = true then Except.error ("Missing value for " ++ arg)
        else parseLoop { options with outputPath := some value } positionals rest2
    else if arg = "--config" then
      match rest with
      | [] => Except.error "Missing value for --config"
      | value :: rest2 =>
        if isBadValue value = true then Except.error "Missing value for --config"
        else parseLoop { options with configPath := some value } positionals rest2
    else if arg = "--mermaid-config" then
      match rest with
      | [] => Except.error "Missing value for --mermaid-config"
      | value :: rest2 =>
        if isBadValue value = true then Except.error "Missing value for --mermaid-config"
        else parseLoop { options with mermaidConfigPath := some value } positionals rest2
    else if arg = "--puppeteer-config" then
      match rest with
      | [] => Except.error "Missing value for --puppeteer-config"
      | value :: rest2 =>
        if isBadValue value = true then Except.error "Missing value for --puppeteer-config"
        else parseLoop { options with puppeteerConfigPath := some value } positionals rest2
    else if startsWithDash arg = true then Except.error ("Unknown option: " ++ arg)
    else parseLoop options (positionals ++ [arg]) rest

/-- The function `parseArgs`: `Except.error` is `ok: false` with the error
text, `Except.ok` is `ok: true` with the options. -/
def parseArgs (argv : List String) : Except String CliOptions :=
  match parseLoop CliOptions.initial [] argv with
  | Except.error error => Except.error error
  | Except.ok (options, positionals) =>
    if positionals.length > 1 then Except.error "Only one input markdown file is supported"
    else if positionals.length = 1 then
      Except.ok { options with inputPath := positionals.getD 0 "" }
    else Except.ok options

/-- The options `parseArgs` knows. -/
def KNOWN_OPTIONS : List String :=
  ["-h", "--help", "-v", "--version", "--verbose", "--keep-temp", "-o", "--output",
    "--config", "--mermaid-config", "--puppeteer-config"]

/-- The options that take a value. -/
def VALUE_OPTIONS : List String :=
  ["-o", "--output", "--config", "--mermaid-config", "--puppeteer-config"]

/-! ## A concrete run, for instances of the theorems about the pipeline -/

/-- A file system with the Markdown file `/doc/a.md` and the entry point of
the Mermaid CLI. -/
def demoFS : FS := fun p =>
  if p = "/doc/a.md" then some (Node.file "# A\n".toList)
  else if p = "/pkg/node_modules/@mermaid-js/mermaid-cli/src/cli.js" then some (Node.file [])
  else none

/-- An environment for `/doc/a.md`: paths are joined with `/`; `mkdir`
fails with `EACCES` when `mkdirFails` and creates the directory otherwise;
the child process ends with `exitCode`, after writing the temp Markdown when
the code is 0; `md-to-pdf` writes the output file. -/
def demoEnv (mkdirFails : Bool) (exitCode : Int) : Env where
  resolve := fun p => p
  dirname := fun _ => "/doc"
  parseName := fun _ => "a"
  join := fun parts => "/".intercalate parts
  extname := fun _ => ""
  packageRoot := "/pkg"
  execPath := "node"
  mkdir := fun p fs =>
    if mkdirFails then (Except.error (Thrown.error "EACCES: permission denied, mkdir"), fs)
    else (Except.ok (), fun q => if q = p then some Node.dir else fs q)
  readFile := fun p fs =>
    match fs p with
    | some (Node.file content) => (Except.ok content, fs)
    | _ => (Except.error (Thrown.error "ENOENT: no such file or directory, open"), fs)
  writeFile := fun p content fs =>
    (Except.ok (), fun q => if q = p then some (Node.file content) else fs q)
  spawn := fun _ args fs =>
    (ChildOutcome.closed (some exitCode) "" (if exitCode = 0 then "" else "Parse error"),
      if exitCode = 0 then
        fun q => if q = args.getD 4 "" then some (Node.file "# A\n".toList) else fs q
      else fs)
  importMdToPdf := ImportOutcome.callable
  mdToPdf := fun _ config fs =>
    match config "dest" with
    | some (JsVal.str dest) =>
      (Except.ok (), fun q => if q = dest then some (Node.file "%PDF".toList) else fs q)
    | _ => (Except.error (Thrown.error "no dest"), fs)
  jsonParse := fun _ => Except.ok Parsed.notPlainObject
  importConfig := fun _ fs => (Except.error (Thrown.error "ERR_MODULE_NOT_FOUND"), fs)
  jsonStringify := fun s => "\"" ++ s ++ "\""
  rmFault := fun _ _ _ => none

/-- The request `md-mmd-pdf /doc/a.md`, with or without `--keep-temp`. -/
def demoOptions (keepTemp : Bool) : ConvertOptions where
  inputPath := "/doc/a.md"
  outputPath := none
  configPath := none
  mermaidConfigPath := none
  puppeteerConfigPath := none
  verbose := false
  keepTemp := keepTemp

/-- The file system `demoFS` with a PDF left at `/doc/a.pdf` by an earlier
run. -/
def staleFS : FS := fun p =>
  if p = "/doc/a.pdf" then some (Node.file "%PDF old".toList) else demoFS p

/-- The environment `demoEnv false 0` in which the temp Markdown file is
busy when the cleanup wants to remove it. -/
def busyRmEnv : Env :=
  { demoEnv false 0 with
    rmFault := fun p _ _ =>
      if p = "/doc/.a.md-mmd-pdf.1-2-ab.md" then
        some (Thrown.error "EBUSY: resource busy or locked, rm", fun _ => false)
      else none }

/-- The directory `/doc` is read-only: `mkdir` fails (`demoEnv true 0`) and
so does the removal of `/doc/a.pdf`. -/
def readOnlyDirEnv : Env :=
  { demoEnv true 0 with
    rmFault := fun p _ _ =>
      if p = "/doc/a.pdf" then
        some (Thrown.error "EACCES: permission denied, unlink", fun _ => false)
      else none }

/-- The environment `demoEnv false 0` in which the child process writes the
temp Markdown file and one picture, `a-1.svg`, into the asset directory. -/
def diagramEnv : Env :=
  { demoEnv false 0 with
    spawn := fun _ args fs =>
      (ChildOutcome.closed (some 0) "" "", fun q =>
        if q = args.getD 4 "" then some (Node.file "# A\n".toList)
        else if q = args.getD 6 "" ++ "/a-1.svg" then some (Node.file "<svg/>".toList)
        else fs q) }

/-! ## Lemmas about the normaliser -/

theorem endsWithNewline_iff (s : Str) :
    endsWithNewline s = true ↔ s.getLast? = some '\n' := by
  unfold endsWithNewline
  simp only [Bool.or_eq_true, List.isSuffixOf_iff_suffix, List.getLast?_eq_some_iff]
  constructor
  · rintro (⟨t, rfl⟩ | ⟨t, rfl⟩)
    · exact ⟨t ++ ['\r'], by simp⟩
    · exact ⟨t, rfl⟩
  · rintro ⟨t, rfl⟩
    exact Or.inr ⟨t, rfl⟩

theorem splitLines_ne_nil (s : Str) : splitLines s ≠ [] := by
  induction s with
  | nil => simp [splitLines]
  | cons c rest ih =>
    unfold splitLines
    split_ifs
    · simp
    · exact ih
    · cases h : splitLines rest with
      | nil => exact absurd h ih
      | cons l ls => simp [consHead]

theorem joinLines_cons_of_ne_nil (l : Str) (ls : List Str) (h : ls ≠ []) :
    joinLines (l :: ls) = l ++ '\n' :: joinLines ls := by
  cases ls with
  | nil => exact absurd rfl h
  | cons l2 rest => rfl

theorem joinLines_consHead (c : Char) (ls : List Str) (h : ls ≠ []) :
    joinLines (consHead c ls) = c :: joinLines ls := by
  cases ls with
  | nil => exact absurd rfl h
  | cons l rest =>
    cases rest with
    | nil => rfl
    | cons l2 r => rfl


theorem joinLines_splitLines (s : Str) (h : hasCRLF s = false) :
    joinLines (splitLines s) = s := by
  induction s with
  | nil => rfl
  | cons c rest ih =>
    simp only [hasCRLF, Bool.or_eq_false_iff, decide_eq_false_iff_not] at h
    unfold splitLines
    split_ifs with h1 h2
    · subst h1
      rw [joinLines_cons_of_ne_nil _ _ (splitLines_ne_nil rest), ih h.2]; rfl
    · exact absurd h2 h.1
    · rw [joinLines_consHead _ _ (splitLines_ne_nil rest), ih h.2]

theorem mem_consHead {c : Char} {ls : List Str} {l : Str} (h : l ∈ consHead c ls) :
    l = [c] ∨ (∃ l0, l = c :: l0 ∧ l0 ∈ ls) ∨ l ∈ ls := by
  cases ls with
  | nil => simp [consHead] at h; exact Or.inl h
  | cons l1 rest =>
    simp only [consHead, List.mem_cons] at h
    rcases h with h | h
    · exact Or.inr (Or.inl ⟨l1, h, List.mem_cons_self _ _⟩)
    · exact Or.inr (Or.inr (List.mem_cons_of_mem _ h))

theorem newline_not_mem_splitLines (s : Str) : ∀ l ∈ splitLines s, '\n' ∉ l := by
  induction s with
  | nil => simp [splitLines]
  | cons c rest ih =>
    unfold splitLines
    split_ifs with h1 h2
    · intro l hl
      simp only [List.mem_cons] at hl
      rcases hl with rfl | hl
      · simp
      · exact ih l hl
    · exact ih
    · intro l hl
      rcases mem_consHead hl with rfl | ⟨l0, rfl, hl0⟩ | hl
      · simpa using Ne.symm h1
      · simp only [List.mem_cons, not_or]
        exact ⟨Ne.symm h1, ih l0 hl0⟩
      · exact ih l hl

theorem mapLines_length (st : FenceState) (ls : List Str) :
    (mapLines st ls).length = ls.length := by
  induction ls generalizing st with
  | nil => rfl
  | cons l rest ih => simp [mapLines, ih]

theorem isBlank_iff_all (s : Str) : s.all isJsSpace = true ↔ IsBlank s := by
  simp [IsBlank, List.all_eq_true]

theorem isBlank_takeWhile (s : Str) : IsBlank (s.takeWhile isJsSpace) := by
  intro c hc
  exact (List.mem_takeWhile_imp hc)

theorem dropWhile_blank_append (a r : Str) (h : IsBlank a) :
    (a ++ r).dropWhile isJsSpace = r.dropWhile isJsSpace := by
  induction a with
  | nil => rfl
  | cons c a ih =>
    have hc : isJsSpace c = true := h c (List.mem_cons_self _ _)
    have ha : IsBlank a := fun x hx => h x (List.mem_cons_of_mem _ hx)
    simp [List.dropWhile_cons, hc, ih ha]

theorem stripLit_eq_some (lit s r : Str) : stripLit lit s = some r ↔ s = lit ++ r := by
  induction lit generalizing s with
  | nil => simp [stripLit, eq_comm]
  | cons p ps ih =>
    cases s with
    | nil => simp [stripLit]
    | cons c cs =>
      simp only [stripLit, List.cons_append, List.cons.injEq]
      split_ifs with h
      · simp [ih, h]
      · simp [Ne.symm h]

theorem stripLitNoCase_eq_some (lit s r : Str) :
    stripLitNoCase lit s = some r ↔
      ∃ w : Str, w.map asciiLower = lit.map asciiLower ∧ s = w ++ r := by
  induction lit generalizing s with
  | nil =>
    simp only [stripLitNoCase, Option.some.injEq, List.map_nil, List.map_eq_nil_iff]
    constructor
    · rintro rfl; exact ⟨[], rfl, rfl⟩
    · rintro ⟨w, rfl, rfl⟩; rfl
  | cons p ps ih =>
    cases s with
    | nil =>
      constructor
      · intro h; simp [stripLitNoCase] at h
      · rintro ⟨w, hw, h⟩
        cases w with
        | nil => simp at hw
        | cons _ _ => simp at h
    | cons c cs =>
      simp only [stripLitNoCase]
      split_ifs with h
      · rw [ih]
        constructor
        · rintro ⟨w, hw, rfl⟩
          exact ⟨c :: w, by simp [hw, h], rfl⟩
        · rintro ⟨w, hw, hs⟩
          cases w with
          | nil => simp at hw
          | cons x w =>
            simp only [List.map_cons, List.cons.injEq, List.cons_append] at hw hs
            exact ⟨w, hw.2, hs.2⟩
      · simp only [false_iff, not_exists, not_and]
        intro w hw hs
        cases w with
        | nil => simp at hw
        | cons x w =>
          simp only [List.map_cons, List.cons.injEq, List.cons_append] at hw hs
          exact h (by rw [hs.1, hw.1])

theorem asciiLower_of_space (c : Char) (h : isJsSpace c = true) : asciiLower c = c := by
  unfold asciiLower
  rw [if_neg]
  intro hc
  unfold isJsSpace at h
  simp only [Bool.or_eq_true, decide_eq_true_eq, Bool.and_eq_true] at h
  omega

theorem dropWhile_of_head (c : Char) (s : Str) (h : isJsSpace c = false) :
    (c :: s).dropWhile isJsSpace = c :: s := by
  simp [List.dropWhile_cons, h]

theorem isNewpageLine_iff (line : Str) : isNewpageLine line = true ↔ IsNewpageForm line := by
  unfold isNewpageLine IsNewpageForm
  constructor
  · intro h
    split at h
    · rename_i rest hrest
      rw [stripLit_eq_some] at hrest
      refine ⟨line.takeWhile isJsSpace, rest, isBlank_takeWhile _, (isBlank_iff_all _).1 h, ?_⟩
      rw [List.append_assoc, ← hrest, List.takeWhile_append_dropWhile]
    · simp at h
  · rintro ⟨a, b, ha, hb, rfl⟩
    rw [List.append_assoc, dropWhile_blank_append _ _ ha]
    have : ("\\newpage".toList ++ b).dropWhile isJsSpace = "\\newpage".toList ++ b :=
      dropWhile_of_head _ _ (by decide)
    rw [this, (stripLit_eq_some _ _ b).2 rfl]
    exact (isBlank_iff_all _).2 hb

theorem head_not_space_of_map (w : Str) (c : Char) (cs : Str) (hc : isJsSpace c = false)
    (hw : w.map asciiLower = c :: cs) (r : Str) :
    (w ++ r).dropWhile isJsSpace = w ++ r := by
  cases w with
  | nil => simp at hw
  | cons x w =>
    simp only [List.map_cons, List.cons.injEq] at hw
    refine dropWhile_of_head _ _ ?_
    by_contra hx
    simp only [Bool.not_eq_false] at hx
    rw [asciiLower_of_space _ hx] at hw
    rw [hw.1, hc] at hx
    exact absurd hx (by simp)

theorem isCommentLine_iff (line : Str) : isCommentLine line = true ↔ IsCommentForm line := by
  unfold isCommentLine IsCommentForm
  constructor
  · intro h
    split at h
    · simp at h
    · rename_i r1 h1
      split at h
      · simp at h
      · rename_i r2 h2
        split at h
        · simp at h
        · rename_i r3 h3
          rw [stripLit_eq_some] at h1 h3
          rw [stripLitNoCase_eq_some] at h2
          obtain ⟨w, hw, h2⟩ := h2
          refine ⟨line.takeWhile isJsSpace, r1.takeWhile isJsSpace, r2.takeWhile isJsSpace, r3, w,
            isBlank_takeWhile _, isBlank_takeWhile _, isBlank_takeWhile _,
            (isBlank_iff_all _).1 h, ?_, ?_⟩
          · rw [hw]; decide
          · have e1 := List.takeWhile_append_dropWhile isJsSpace line
            have e2 := List.takeWhile_append_dropWhile isJsSpace r1
            have e3 := List.takeWhile_append_dropWhile isJsSpace r2
            rw [h1] at e1
            rw [h2] at e2
            rw [h3] at e3
            calc line = line.takeWhile isJsSpace ++ ("<!--".toList ++ r1) := e1.symm
              _ = line.takeWhile isJsSpace ++ ("<!--".toList ++
                    (r1.takeWhile isJsSpace ++ (w ++ r2))) := by rw [e2]
              _ = line.takeWhile isJsSpace ++ ("<!--".toList ++
                    (r1.takeWhile isJsSpace ++ (w ++
                      (r2.takeWhile isJsSpace ++ ("-->".toList ++ r3))))) := by rw [e3]
              _ = _ := by simp only [List.append_assoc]
  · rintro ⟨a, b, c, d, w, ha, hb, hc, hd, hw, rfl⟩
    simp only [List.append_assoc]
    rw [dropWhile_blank_append _ _ ha]
    have e1 : ("<!--".toList ++ (b ++ (w ++ (c ++ ("-->".toList ++ d))))).dropWhile isJsSpace
        = "<!--".toList ++ (b ++ (w ++ (c ++ ("-->".toList ++ d)))) :=
      dropWhile_of_head _ _ (by decide)
    rw [e1, (stripLit_eq_some _ _ _).2 rfl]
    simp only
    rw [dropWhile_blank_append _ _ hb,
      head_not_space_of_map w 'p' "agebreak".toList (by decide) hw]
    rw [(stripLitNoCase_eq_some _ _ (c ++ ("-->".toList ++ d))).2 ⟨w, by rw [hw]; decide, rfl⟩]
    simp only
    rw [dropWhile_blank_append _ _ hc]
    have e2 : ("-->".toList ++ d).dropWhile isJsSpace = "-->".toList ++ d :=
      dropWhile_of_head _ _ (by decide)
    rw [e2, (stripLit_eq_some _ _ d).2 rfl]
    exact (isBlank_iff_all _).2 hd

theorem isPageBreakMarker_iff (line : Str) :
    isPageBreakMarker line = true ↔ IsMarkerLine line := by
  unfold isPageBreakMarker IsMarkerLine
  rw [Bool.or_eq_true, isNewpageLine_iff, isCommentLine_iff]

theorem parseFence_of_head (line : Str) (c : Char) (r : Str)
    (h : line.dropWhile isJsSpace = c :: r) (hc : isFenceChar c = false) :
    parseFence line = none := by
  unfold parseFence
  simp [h, List.takeWhile_cons, hc]

theorem parseFence_of_marker (line : Str) (h : isPageBreakMarker line = true) :
    parseFence line = none := by
  rw [isPageBreakMarker_iff] at h
  rcases h with ⟨a, b, ha, _, rfl⟩ | ⟨a, b, c, d, w, ha, _, _, _, _, rfl⟩
  · refine parseFence_of_head _ '\\' ("newpage".toList ++ b) ?_ (by decide)
    rw [List.append_assoc, dropWhile_blank_append _ _ ha]
    exact dropWhile_of_head _ _ (by decide)
  · refine parseFence_of_head _ '<' ("!--".toList ++ (b ++ (w ++ (c ++ ("-->".toList ++ d))))) ?_
      (by decide)
    simp only [List.append_assoc]
    rw [dropWhile_blank_append _ _ ha]
    exact dropWhile_of_head _ _ (by decide)

theorem stepLine_snd (st : FenceState) (line : Str) :
    (stepLine st line).2 =
      if st.inFence = false ∧ isPageBreakMarker line = true then PAGE_BREAK_REPLACEMENT
      else line := by
  unfold stepLine
  by_cases hf : st.inFence = true
  · simp only [hf, if_true]
    have : ¬ (true = false ∧ isPageBreakMarker line = true) := by simp
    rw [if_neg this]
    cases parseFence line with
    | none => rfl
    | some f => simp only; split_ifs <;> rfl
  · simp only [Bool.not_eq_true] at hf
    simp only [hf, Bool.false_eq_true, if_false, true_and]
    by_cases hm : isPageBreakMarker line = true
    · rw [parseFence_of_marker line hm]
      simp [hm]
    · cases parseFence line <;> simp [hm]

theorem mapLines_getElem? (st : FenceState) (ls : List Str) (i : Nat) :
    (mapLines st ls)[i]? =
      (ls[i]?).map (fun l => (stepLine (stateAfter st (ls.take i)) l).2) := by
  induction ls generalizing st i with
  | nil => simp [mapLines]
  | cons l rest ih =>
    cases i with
    | zero => simp [mapLines, stateAfter]
    | succ i => simp [mapLines, stateAfter, ih]

theorem mapLines_of_no_marker (st : FenceState) (ls : List Str)
    (h : ∀ l ∈ ls, isPageBreakMarker l = false) : mapLines st ls = ls := by
  induction ls generalizing st with
  | nil => rfl
  | cons l rest ih =>
    have hl : isPageBreakMarker l = false := h l (List.mem_cons_self _ _)
    simp only [mapLines, stepLine_snd, hl, Bool.false_eq_true, and_false, if_false]
    rw [ih _ (fun x hx => h x (List.mem_cons_of_mem _ hx))]

theorem normalize_eq (markdown : Str) :
    normalizePageBreakMarkers markdown =
      joinLines (mapLines FenceState.init (splitLines markdown)) ++
        (if endsWithNewline markdown = true then ['\n'] else []) := by
  unfold normalizePageBreakMarkers
  simp only
  split_ifs <;> simp

/-! ### trailing newline -/

theorem getLast?_joinLines_splitLines (s : Str) :
    (joinLines (splitLines s)).getLast? = s.getLast? := by
  induction s with
  | nil => rfl
  | cons c rest ih =>
    unfold splitLines
    split_ifs with h1 h2
    · rw [joinLines_cons_of_ne_nil _ _ (splitLines_ne_nil rest), List.nil_append,
        List.getLast?_cons, List.getLast?_cons, ih, h1]
    · rw [ih]
      cases rest with
      | nil => simp at h2
      | cons d r => simp
    · rw [joinLines_consHead _ _ (splitLines_ne_nil rest), List.getLast?_cons,
        List.getLast?_cons, ih]

theorem mapLines_ne_nil (st : FenceState) (ls : List Str) (h : ls ≠ []) :
    mapLines st ls ≠ [] := by
  intro hm
  have := mapLines_length st ls
  rw [hm] at this
  exact h (List.length_eq_zero.1 this.symm)

theorem getLast?_append_newline_cons (a x : Str) :
    (a ++ '\n' :: x).getLast? = some (x.getLast?.getD '\n') := by
  rw [List.getLast?_append, List.getLast?_cons]
  rfl

theorem getLast?_of_not_mem (l : Str) (h : '\n' ∉ l) : l.getLast? ≠ some '\n' := by
  intro hl
  exact h (List.mem_of_getLast?_eq_some hl)

theorem joinLines_mapLines_last (st : FenceState) (ls : List Str)
    (h : ∀ l ∈ ls, '\n' ∉ l) :
    (joinLines (mapLines st ls)).getLast?.getD '\n' = '\n' ↔
      (joinLines ls).getLast?.getD '\n' = '\n' := by
  induction ls generalizing st with
  | nil => rfl
  | cons l rest ih =>
    by_cases hr : rest = []
    · subst hr
      simp only [mapLines, joinLines]
      rw [stepLine_snd]
      split_ifs with hc
      · have hl : l.getLast? ≠ some '\n' := getLast?_of_not_mem l (h l (List.mem_cons_self _ _))
        have hne : l ≠ [] := by
          rintro rfl
          exact absurd hc.2 (by decide)
        constructor
        · intro h1
          exact absurd h1 (by decide)
        · intro h1
          exfalso
          cases hg : l.getLast? with
          | none => exact hne (List.getLast?_eq_none_iff.1 hg)
          | some c =>
            rw [hg] at h1 hl
            simp only [Option.getD_some] at h1
            exact hl (by rw [h1])
      · rfl
    · simp only [mapLines]
      rw [joinLines_cons_of_ne_nil _ _ (mapLines_ne_nil _ _ hr),
        joinLines_cons_of_ne_nil _ _ hr, getLast?_append_newline_cons,
        getLast?_append_newline_cons]
      simp only [Option.getD_some]
      exact ih _ (fun x hx => h x (List.mem_cons_of_mem _ hx))

theorem endsWithNewline_normalize (markdown : Str) :
    endsWithNewline (normalizePageBreakMarkers markdown) = endsWithNewline markdown := by
  by_cases he : endsWithNewline markdown = true
  · rw [he, endsWithNewline_iff]
    unfold normalizePageBreakMarkers
    simp only [he, if_true]
    exact List.getLast?_concat _
  · have he2 : endsWithNewline markdown = false := by simpa using he
    rw [he2]
    unfold normalizePageBreakMarkers
    simp only [he2, Bool.false_eq_true, if_false]
    cases markdown with
    | nil => decide
    | cons c rest =>
      rw [← Bool.not_eq_true, endsWithNewline_iff]
      rw [endsWithNewline_iff] at he
      intro hlast
      have h1 := (joinLines_mapLines_last FenceState.init (splitLines (c :: rest))
        (newline_not_mem_splitLines _)).1 (by rw [hlast]; rfl)
      rw [getLast?_joinLines_splitLines] at h1
      cases hg : (c :: rest).getLast? with
      | none => simp at hg
      | some x =>
        rw [hg] at h1 he
        simp only [Option.getD_some] at h1
        exact he (by rw [h1])

/-! ### counting occurrences -/

theorem isPrefixOf_append_newline (pat x b : Str) (h : '\n' ∉ pat) :
    pat.isPrefixOf (x ++ '\n' :: b) = pat.isPrefixOf x := by
  induction pat generalizing x with
  | nil => simp
  | cons p ps ih =>
    have hp : p ≠ '\n' := fun e => h (by simp [e])
    have hps : '\n' ∉ ps := fun e => h (List.mem_cons_of_mem _ e)
    cases x with
    | nil => simp [List.isPrefixOf, hp]
    | cons c x =>
      show (p == c && ps.isPrefixOf (x ++ '\n' :: b)) = (p == c && ps.isPrefixOf x)
      rw [ih x hps]

theorem countOcc_nil (pat : Str) (h : pat ≠ []) : countOcc pat [] = 0 := by
  cases pat with
  | nil => exact absurd rfl h
  | cons p ps => rfl

theorem countOcc_append_newline (pat x b : Str) (hne : pat ≠ []) (h : '\n' ∉ pat) :
    countOcc pat (x ++ '\n' :: b) = countOcc pat x + countOcc pat b := by
  induction x with
  | nil =>
    have := isPrefixOf_append_newline pat [] b h
    simp only [List.nil_append] at this
    show (if pat.isPrefixOf ('\n' :: b) = true then 1 else 0) + countOcc pat b =
      countOcc pat [] + countOcc pat b
    rw [this, countOcc_nil pat hne]
    cases pat with
    | nil => exact absurd rfl hne
    | cons p ps => simp [List.isPrefixOf]
  | cons c x ih =>
    have := isPrefixOf_append_newline pat (c :: x) b h
    simp only [List.cons_append] at this
    show (if pat.isPrefixOf (c :: (x ++ '\n' :: b)) = true then 1 else 0) +
        countOcc pat (x ++ '\n' :: b) =
      ((if pat.isPrefixOf (c :: x) = true then 1 else 0) + countOcc pat x) + countOcc pat b
    rw [this, ih]
    omega

theorem countOcc_joinLines (pat : Str) (ls : List Str) (hne : pat ≠ []) (h : '\n' ∉ pat) :
    countOcc pat (joinLines ls) = (ls.map (countOcc pat)).sum := by
  induction ls with
  | nil => simp [joinLines, countOcc_nil pat hne]
  | cons l rest ih =>
    by_cases hr : rest = []
    · subst hr; simp [joinLines]
    · rw [joinLines_cons_of_ne_nil _ _ hr, countOcc_append_newline pat _ _ hne h, ih]
      simp

theorem countOcc_eq_zero_iff (pat s : Str) : countOcc pat s = 0 ↔ ¬ pat <:+: s := by
  induction s with
  | nil =>
    cases pat with
    | nil => simp [countOcc]
    | cons p ps => simp [countOcc, List.isPrefixOf]
  | cons c cs ih =>
    rw [List.infix_cons_iff]
    simp only [countOcc, Nat.add_eq_zero_iff, ih, not_or]
    constructor
    · rintro ⟨h1, h2⟩
      refine ⟨?_, h2⟩
      intro hp
      rw [← List.isPrefixOf_iff_prefix] at hp
      simp [hp] at h1
    · rintro ⟨h1, h2⟩
      refine ⟨?_, h2⟩
      rw [← List.isPrefixOf_iff_prefix] at h1
      simp [h1]

theorem splitLines_sub (s : Str) :
    ∃ l ls, splitLines s = l :: ls ∧ l <+: s ∧ ∀ x ∈ ls, x <:+: s := by
  induction s with
  | nil => exact ⟨[], [], rfl, List.prefix_refl _, by simp⟩
  | cons c rest ih =>
    obtain ⟨l, ls, hs, hl, hls⟩ := ih
    unfold splitLines
    split_ifs with h1 h2
    · refine ⟨[], l :: ls, by rw [hs], List.nil_prefix, ?_⟩
      intro x hx
      rw [List.infix_cons_iff]
      right
      rcases List.mem_cons.1 hx with rfl | hx
      · exact hl.isInfix
      · exact hls x hx
    · refine ⟨l, ls, hs, ?_, fun x hx => ?_⟩
      · cases rest with
        | nil => simp at h2
        | cons d r =>
          simp only [List.head?_cons, Option.some.injEq] at h2
          have hd : d = '\n' := h2.2
          subst hd
          unfold splitLines at hs
          simp only [if_true, List.cons.injEq] at hs
          rw [← hs.1]
          exact List.nil_prefix
      · rw [List.infix_cons_iff]
        exact Or.inr (hls x hx)
    · refine ⟨c :: l, ls, by rw [hs]; rfl, ?_, fun x hx => ?_⟩
      · exact (List.prefix_cons_inj c).2 hl
      · rw [List.infix_cons_iff]
        exact Or.inr (hls x hx)

theorem countOcc_line_zero (pat s : Str) (h : countOcc pat s = 0) :
    ∀ l ∈ splitLines s, countOcc pat l = 0 := by
  obtain ⟨l0, ls, hs, hl, hls⟩ := splitLines_sub s
  rw [countOcc_eq_zero_iff] at h
  intro l hmem
  rw [countOcc_eq_zero_iff]
  intro hp
  rw [hs] at hmem
  rcases List.mem_cons.1 hmem with rfl | hmem
  · exact h (hp.trans hl.isInfix)
  · exact h (hp.trans (hls l hmem))

theorem countOcc_replacement : countOcc PAGE_BREAK_REPLACEMENT PAGE_BREAK_REPLACEMENT = 1 := by
  decide

theorem sum_countOcc_mapLines (st : FenceState) (ls : List Str)
    (h : ∀ l ∈ ls, countOcc PAGE_BREAK_REPLACEMENT l = 0) :
    ((mapLines st ls).map (countOcc PAGE_BREAK_REPLACEMENT)).sum =
      (List.range ls.length).countP
        (fun i => !(stateAfter st (ls.take i)).inFence && isPageBreakMarker (ls.getD i [])) := by
  induction ls generalizing st with
  | nil => rfl
  | cons l rest ih =>
    have hl := h l (List.mem_cons_self _ _)
    have hrest := ih (stepLine st l).1 (fun x hx => h x (List.mem_cons_of_mem _ hx))
    simp only [mapLines, List.map_cons, List.sum_cons, List.length_cons,
      List.range_succ_eq_map, List.countP_cons, List.countP_map, hrest]
    rw [Nat.add_comm]
    congr 1
    rw [stepLine_snd]
    simp only [List.take_zero, stateAfter, List.getD_cons_zero]
    by_cases hc : st.inFence = false ∧ isPageBreakMarker l = true
    · rw [if_pos hc, countOcc_replacement]
      simp [hc.1, hc.2]
    · rw [if_neg hc, hl]
      rw [not_and_or] at hc
      rcases hc with hc | hc
      · simp at hc; simp [hc]
      · simp at hc; simp [hc]

theorem joinLines_splitLines_eq (s : Str) : joinLines (splitLines s) = crlfToLf s := by
  induction s with
  | nil => rfl
  | cons c rest ih =>
    unfold splitLines crlfToLf
    split_ifs with h1 h2 h3
    · exact absurd (h1 ▸ h2.1) (by decide)
    · rw [joinLines_cons_of_ne_nil _ _ (splitLines_ne_nil rest), ih, h1]; rfl
    · exact ih
    · rw [joinLines_consHead _ _ (splitLines_ne_nil rest), ih]

theorem crlfToLf_of_no_crlf (s : Str) (h : hasCRLF s = false) : crlfToLf s = s := by
  rw [← joinLines_splitLines_eq, joinLines_splitLines s h]

theorem stepLine_in_fence_of_none (st : FenceState) (line : Str)
    (hin : st.inFence = true) (hp : parseFence line = none) :
    stepLine st line = (st, line) := by
  unfold stepLine
  simp [hin, hp]

theorem mapLines_in_fence (st : FenceState) (body rest : List Str)
    (hin : st.inFence = true) (hb : ∀ b ∈ body, parseFence b = none) :
    mapLines st (body ++ rest) = body ++ mapLines st rest := by
  induction body with
  | nil => rfl
  | cons b bs ih =>
    have h1 := stepLine_in_fence_of_none st b hin (hb b (List.mem_cons_self _ _))
    show (stepLine st b).2 :: mapLines (stepLine st b).1 (bs ++ rest) = b :: (bs ++ mapLines st rest)
    rw [h1, ih (fun x hx => hb x (List.mem_cons_of_mem _ hx))]

theorem takeWhile_length_le (p q : Char → Bool) (l : Str)
    (h : ∀ x, p x = true → q x = true) :
    (l.takeWhile p).length ≤ (l.takeWhile q).length := by
  induction l with
  | nil => simp
  | cons x xs ih =>
    by_cases hp : p x = true
    · simp [List.takeWhile_cons, hp, h x hp, ih]
    · simp [List.takeWhile_cons, hp]

theorem parseFence_of_specFenceRun (line : Str) (c : Char) (n : Nat)
    (h : specFenceRun line = some (c, n)) : ∃ len, parseFence line = some ⟨c, len⟩ := by
  unfold specFenceRun at h
  cases hd : line.dropWhile isJsSpace with
  | nil => rw [hd] at h; simp at h
  | cons x rest =>
    rw [hd] at h
    simp only at h
    split_ifs at h with hc
    simp only [Option.some.injEq, Prod.mk.injEq] at h
    obtain ⟨hx, _⟩ := h
    subst hx
    have hle := takeWhile_length_le (fun y => y == x) isFenceChar (x :: rest)
      (fun y hy => by
        have : y = x := by simpa using hy
        rw [this]; exact hc.1)
    have h3 : ¬ ((x :: rest).takeWhile isFenceChar).length < 3 := by omega
    have hne : ¬ (x ≠ backtick ∧ x ≠ tilde) := by
      have := hc.1
      unfold isFenceChar at this
      simp only [Bool.or_eq_true, decide_eq_true_eq] at this
      tauto
    unfold parseFence
    simp only [hd]
    rw [if_neg h3]
    simp only [List.takeWhile_cons, hc.1, if_true]
    rw [if_neg hne]
    exact ⟨_, rfl⟩

theorem mapLines_closing (st : FenceState) (closing : Str) (tail : List Str)
    (hin : st.inFence = true) (htail : tail = [] ∨ tail = [[]]) :
    mapLines st (closing :: tail) = closing :: tail := by
  have h1 : (stepLine st closing).2 = closing := by
    rw [stepLine_snd]; simp [hin]
  have h2 : ∀ st2 : FenceState, (stepLine st2 []).2 = [] := by
    intro st2
    rw [stepLine_snd]
    have : isPageBreakMarker [] = false := by decide
    simp [this]
  rcases htail with rfl | rfl
  · show [(stepLine st closing).2] = [closing]
    rw [h1]
  · show [(stepLine st closing).2, (stepLine (stepLine st closing).1 []).2] = [closing, []]
    rw [h1, h2]

theorem mapLines_fenced_block (opening closing : Str) (body tail : List Str) (c : Char)
    (n : Nat) (hopen : specFenceRun opening = some (c, n))
    (hbody : ∀ b ∈ body, parseFence b = none)
    (htail : tail = [] ∨ tail = [[]]) :
    mapLines FenceState.init (opening :: (body ++ closing :: tail)) =
      opening :: (body ++ closing :: tail) := by
  obtain ⟨len, hp⟩ := parseFence_of_specFenceRun opening c n hopen
  have h1 : stepLine FenceState.init opening = (⟨true, [c], len⟩, opening) := by
    unfold stepLine
    simp [FenceState.init, hp]
  show (stepLine FenceState.init opening).2 ::
      mapLines (stepLine FenceState.init opening).1 (body ++ closing :: tail) = _
  rw [h1, mapLines_in_fence _ _ _ rfl hbody, mapLines_closing _ _ _ rfl htail]

/-! ## The claims about the normaliser -/

/-- C1: normalising is not idempotent on a text that ends with a newline:
`"A\n"` becomes `"A\n\n"`, and normalising that gives `"A\n\n\n"`. -/
theorem normalize_twice_adds_newline :
    normalizePageBreakMarkers "A\n".toList = "A\n\n".toList ∧
    normalizePageBreakMarkers (normalizePageBreakMarkers "A\n".toList) = "A\n\n\n".toList ∧
    normalizePageBreakMarkers (normalizePageBreakMarkers "A\n".toList) ≠
      normalizePageBreakMarkers "A\n".toList := by
  decide

/-- C2 as stated fails: `"A\r\nB"` has no marker line, and its CR LF line
break comes out as LF. -/
theorem crlf_not_preserved :
    (∀ l ∈ splitLines "A\r\nB".toList, isPageBreakMarker l = false) ∧
    normalizePageBreakMarkers "A\r\nB".toList = "A\nB".toList ∧
    normalizePageBreakMarkers "A\r\nB".toList ≠ "A\r\nB".toList := by
  decide

/-- C2, amended: when no line of the input is a marker, the output begins
with the input in which every CR LF is written as LF, and is equal to it
when the input does not end with a newline; an input without CR LF that
does not end with a newline is returned unchanged. -/
theorem no_marker_unchanged (markdown : Str)
    (hno : ∀ l ∈ splitLines markdown, isPageBreakMarker l = false) :
    crlfToLf markdown <+: normalizePageBreakMarkers markdown ∧
    (endsWithNewline markdown = false →
      normalizePageBreakMarkers markdown = crlfToLf markdown) ∧
    (endsWithNewline markdown = false → hasCRLF markdown = false →
      normalizePageBreakMarkers markdown = markdown) := by
  rw [normalize_eq, mapLines_of_no_marker _ _ hno, joinLines_splitLines_eq]
  refine ⟨List.prefix_append _ _, fun h => ?_, fun h hlf => ?_⟩
  · simp [h]
  · simp [h, crlfToLf_of_no_crlf _ hlf]

/-- An instance of `no_marker_unchanged`: a text of three lines. -/
theorem no_marker_unchanged_witness :
    crlfToLf "# Title\r\n\ntext".toList <+:
        normalizePageBreakMarkers "# Title\r\n\ntext".toList ∧
    (endsWithNewline "# Title\r\n\ntext".toList = false →
      normalizePageBreakMarkers "# Title\r\n\ntext".toList =
        crlfToLf "# Title\r\n\ntext".toList) ∧
    (endsWithNewline "# Title\r\n\ntext".toList = false →
      hasCRLF "# Title\r\n\ntext".toList = false →
      normalizePageBreakMarkers "# Title\r\n\ntext".toList = "# Title\r\n\ntext".toList) :=
  no_marker_unchanged "# Title\r\n\ntext".toList (by decide)

/-- C3: a marker line inside a fence is replaced.  After the opening line of
three backticks, the line of one backtick and two tildes is not a run of
three backticks and does not close the fence, so the lines at 1, 2 and 3
lie inside it; the code replaces the `\newpage` line at 2 all the same. -/
theorem marker_inside_fence_replaced :
    splitLines "```\n`~~\n\\newpage\n```".toList =
      ["```".toList, "`~~".toList, "\\newpage".toList, "```".toList] ∧
    (List.range 4).map (specInsideFence (splitLines "```\n`~~\n\\newpage\n```".toList)) =
      [false, true, true, true] ∧
    (List.range 4).map (insideFenceAt (splitLines "```\n`~~\n\\newpage\n```".toList)) =
      [false, true, false, false] ∧
    splitLines (normalizePageBreakMarkers "```\n`~~\n\\newpage\n```".toList) =
      ["```".toList, "`~~".toList, PAGE_BREAK_REPLACEMENT, "```".toList] := by
  decide

/-- In the fence tracking of the code (`insideFenceAt`): the output is the
list of input lines joined by LF (followed by the final newline when the
input ends with one), where each marker line that the callback reaches with
`inFence` not set has become the replacement line and every other line is
itself, at the same position. -/
theorem marker_lines_replaced (markdown : Str) :
    ∃ out : List Str,
      normalizePageBreakMarkers markdown =
        joinLines out ++ (if endsWithNewline markdown = true then ['\n'] else []) ∧
      out.length = (splitLines markdown).length ∧
      ∀ (i : Nat) (line : Str), (splitLines markdown)[i]? = some line →
        ((insideFenceAt (splitLines markdown) i = false ∧ IsMarkerLine line) →
          out[i]? = some PAGE_BREAK_REPLACEMENT) ∧
        (¬ (insideFenceAt (splitLines markdown) i = false ∧ IsMarkerLine line) →
          out[i]? = some line) := by
  refine ⟨mapLines FenceState.init (splitLines markdown), normalize_eq markdown,
    mapLines_length _ _, ?_⟩
  intro i line hi
  rw [mapLines_getElem?, hi]
  simp only [Option.map_some', stepLine_snd, Option.some.injEq]
  rw [← isPageBreakMarker_iff]
  unfold insideFenceAt
  constructor
  · intro h; rw [if_pos h]
  · intro h; rw [if_neg h]

/-- C4 as stated fails: a fenced block with CR LF line breaks is not left
byte-identical, its line breaks come out as LF. -/
theorem crlf_fenced_block_changed :
    splitLines "```md\r\n\\newpage\r\n<!-- pagebreak -->\r\n```".toList =
      ["```md".toList, "\\newpage".toList, "<!-- pagebreak -->".toList, "```".toList] ∧
    specFenceRun "```md".toList = some (backtick, 3) ∧
    specFenceRun "\\newpage".toList = none ∧
    specFenceRun "<!-- pagebreak -->".toList = none ∧
    specFenceRun "```".toList = some (backtick, 3) ∧
    normalizePageBreakMarkers "```md\r\n\\newpage\r\n<!-- pagebreak -->\r\n```".toList =
      "```md\n\\newpage\n<!-- pagebreak -->\n```".toList ∧
    normalizePageBreakMarkers "```md\r\n\\newpage\r\n<!-- pagebreak -->\r\n```".toList ≠
      "```md\r\n\\newpage\r\n<!-- pagebreak -->\r\n```".toList := by
  decide

/-- C4, amended: when the lines of the input are an opening fence line
(three or more copies of a backtick or of a tilde, after optional
indentation), body lines none of which begins, after optional indentation,
with three or more backtick or tilde characters, and a closing fence line
of the same character with a run at least as long (followed or not by one
final newline), no line of the block is replaced: the output begins with
the input in which every CR LF is written as LF, is equal to it when the
input does not end with a newline, and is the input itself when moreover
the input has no CR LF. -/
theorem fenced_block_unchanged (markdown opening closing : Str) (body tail : List Str)
    (c : Char) (n k : Nat)
    (hlines : splitLines markdown = opening :: (body ++ closing :: tail))
    (htail : tail = [] ∨ tail = [[]])
    (hopen : specFenceRun opening = some (c, n))
    (hbody : ∀ b ∈ body, parseFence b = none)
    (hclose : specFenceRun closing = some (c, k)) (hlen : n ≤ k) :
    crlfToLf markdown <+: normalizePageBreakMarkers markdown ∧
    (endsWithNewline markdown = false →
      normalizePageBreakMarkers markdown = crlfToLf markdown) ∧
    (endsWithNewline markdown = false → hasCRLF markdown = false →
      normalizePageBreakMarkers markdown = markdown) := by
  have _hc := hclose
  have _hl := hlen
  rw [normalize_eq, hlines, mapLines_fenced_block opening closing body tail c n hopen hbody htail,
    ← hlines, joinLines_splitLines_eq]
  refine ⟨List.prefix_append _ _, fun h => ?_, fun h hlf => ?_⟩
  · simp [h]
  · simp [h, crlfToLf_of_no_crlf _ hlf]

/-- An instance of `fenced_block_unchanged`: the fenced block of the unit
test, `\newpage` and `<!-- pagebreak -->` between two fence lines. -/
theorem fenced_block_unchanged_witness :
    "```md\n\\newpage\n<!-- pagebreak -->\n```\n".toList <+:
      normalizePageBreakMarkers "```md\n\\newpage\n<!-- pagebreak -->\n```\n".toList ∧
    normalizePageBreakMarkers "```md\n\\newpage\n<!-- pagebreak -->\n```".toList =
      "```md\n\\newpage\n<!-- pagebreak -->\n```".toList :=
  ⟨(fenced_block_unchanged "```md\n\\newpage\n<!-- pagebreak -->\n```\n".toList
      "```md".toList "```".toList ["\\newpage".toList, "<!-- pagebreak -->".toList] [[]]
      backtick 3 3 (by decide) (Or.inr rfl) (by decide) (by decide) (by decide)
      (by decide)).1,
    (fenced_block_unchanged "```md\n\\newpage\n<!-- pagebreak -->\n```".toList
      "```md".toList "```".toList ["\\newpage".toList, "<!-- pagebreak -->".toList] []
      backtick 3 3 (by decide) (Or.inl rfl) (by decide) (by decide) (by decide)
      (by decide)).2.2 (by decide) (by decide)⟩

/-- C5: a line that mixes the two fence characters closes a fence: after the
opening line of three backticks, the line of one backtick and two tildes is
parsed as a fence of character backtick and length 3, the fence ends, and
the marker line after it is replaced. -/
theorem mixed_run_closes_fence :
    parseFence "`~~".toList = some ⟨backtick, 3⟩ ∧
    insideFenceAt (splitLines "```\n`~~\n\\newpage\n```".toList) 1 = true ∧
    insideFenceAt (splitLines "```\n`~~\n\\newpage\n```".toList) 2 = false ∧
    normalizePageBreakMarkers "```\n`~~\n\\newpage\n```".toList =
      "```\n`~~\n<div class=\"page-break\"></div>\n```".toList := by
  decide

/-- C6: the output ends with a newline exactly when the input does. -/
theorem trailing_newline_preserved (markdown : Str) :
    (normalizePageBreakMarkers markdown).getLast? = some '\n' ↔
      markdown.getLast? = some '\n' := by
  rw [← endsWithNewline_iff, ← endsWithNewline_iff, endsWithNewline_normalize]

/-- C7: a marker line inside a fence is counted.  The input does not contain
the replacement text and none of its marker lines lies outside a fence, yet
the output contains the replacement text once. -/
theorem replacement_inside_fence_counted :
    countOcc PAGE_BREAK_REPLACEMENT "```\n`~~\n\\newpage\n```".toList = 0 ∧
    specMarkersOutsideFences (splitLines "```\n`~~\n\\newpage\n```".toList) = 0 ∧
    countOcc PAGE_BREAK_REPLACEMENT
      (normalizePageBreakMarkers "```\n`~~\n\\newpage\n```".toList) = 1 := by
  decide

/-- In the fence tracking of the code (`markerLinesOutsideFences`): when the
input does not contain the replacement text, the number of its occurrences
in the output is the number of marker lines that the callback reaches with
`inFence` not set. -/
theorem replacement_count (markdown : Str)
    (hfresh : countOcc PAGE_BREAK_REPLACEMENT markdown = 0) :
    countOcc PAGE_BREAK_REPLACEMENT (normalizePageBreakMarkers markdown) =
      markerLinesOutsideFences (splitLines markdown) := by
  have hne : PAGE_BREAK_REPLACEMENT ≠ [] := by decide
  have hnl : '\n' ∉ PAGE_BREAK_REPLACEMENT := by decide
  have hsum := sum_countOcc_mapLines FenceState.init (splitLines markdown)
    (countOcc_line_zero _ _ hfresh)
  have hjoin := countOcc_joinLines PAGE_BREAK_REPLACEMENT
    (mapLines FenceState.init (splitLines markdown)) hne hnl
  rw [normalize_eq]
  unfold markerLinesOutsideFences insideFenceAt
  rw [← hsum, ← hjoin]
  split_ifs
  · have := countOcc_append_newline PAGE_BREAK_REPLACEMENT
      (joinLines (mapLines FenceState.init (splitLines markdown))) [] hne hnl
    rw [this, countOcc_nil _ hne]
    rfl
  · rw [List.append_nil]

/-- An instance of `replacement_count`: two markers outside fences and two
marker-looking lines inside one fence give two replacement blocks. -/
theorem replacement_count_witness :
    countOcc PAGE_BREAK_REPLACEMENT
        "A\n\\newpage\n```md\n\\newpage\n<!-- pagebreak -->\n```\n<!-- PageBreak -->\nB\n".toList
      = 0 ∧
    markerLinesOutsideFences (splitLines
        "A\n\\newpage\n```md\n\\newpage\n<!-- pagebreak -->\n```\n<!-- PageBreak -->\nB\n".toList)
      = 2 ∧
    countOcc PAGE_BREAK_REPLACEMENT (normalizePageBreakMarkers
        "A\n\\newpage\n```md\n\\newpage\n<!-- pagebreak -->\n```\n<!-- PageBreak -->\nB\n".toList)
      = markerLinesOutsideFences (splitLines
        "A\n\\newpage\n```md\n\\newpage\n<!-- pagebreak -->\n```\n<!-- PageBreak -->\nB\n".toList) :=
  ⟨by decide, by decide, replacement_count _ (by decide)⟩

/-! ## Lemmas about the pipeline -/

theorem rm_snd_cases (env : Env) (p : Path) (r f : Bool) (fs : FS) (q : Path) :
    (rm env p r f fs).2 q = none ∨ (rm env p r f fs).2 q = fs q := by
  unfold rm
  cases hfault : env.rmFault p r fs with
  | some v =>
    simp only
    by_cases hq : r = true ∧ (q = p ∨ isBelow p q = true) ∧ v.2 q = true
    · left; rw [if_pos hq]
    · right; rw [if_neg hq]
  | none =>
    cases h : fs p with
    | none => cases f <;> simp
    | some n =>
      cases n with
      | file c =>
        by_cases hq : q = p
        · left; simp [hq]
        · right; simp [hq]
      | dir =>
        cases r
        · right; simp
        · by_cases hq : q = p ∨ isBelow p q = true
          · left; simp only [if_true]; rw [if_pos hq]
          · right; simp only [if_true]; rw [if_neg hq]

theorem rm_snd_of_none (env : Env) (p : Path) (r f : Bool) (fs : FS) (q : Path)
    (h : fs q = none) : (rm env p r f fs).2 q = none := by
  rcases rm_snd_cases env p r f fs q with h1 | h1
  · exact h1
  · rw [h1, h]

theorem rm_other (env : Env) (p q : Path) (r f : Bool) (fs : FS) (h1 : q ≠ p)
    (h2 : isBelow p q = false) : (rm env p r f fs).2 q = fs q := by
  unfold rm
  cases hfault : env.rmFault p r fs with
  | some v => simp [h1, h2]
  | none =>
    cases hp : fs p with
    | none => cases f <;> simp
    | some n =>
      cases n with
      | file c => simp [h1]
      | dir => cases r <;> simp [h1, h2]

theorem rm_force_other (env : Env) (p q : Path) (fs : FS) (h : q ≠ p) :
    (rm env p false true fs).2 q = fs q := by
  unfold rm
  cases hfault : env.rmFault p false fs with
  | some v => simp
  | none =>
    cases hp : fs p with
    | none => simp
    | some n => cases n <;> simp [h]

theorem rm_recursive_force_self (env : Env) (p : Path) (fs : FS)
    (hnf : env.rmFault p true fs = none) : (rm env p true true fs).2 p = none := by
  unfold rm
  rw [hnf]
  cases h : fs p with
  | none => simpa using h
  | some n => cases n <;> simp

theorem rm_recursive_force_below (env : Env) (p q : Path) (fs : FS)
    (hnf : env.rmFault p true fs = none) (hd : fs p = some Node.dir)
    (hq : isBelow p q = true) : (rm env p true true fs).2 q = none := by
  unfold rm
  rw [hnf]
  simp [hd, hq]

theorem rm_recursive_force_removed (env : Env) (p q : Path) (fs : FS)
    (hnf : env.rmFault p true fs = none) (h1 : (rm env p true true fs).2 q = none)
    (h2 : fs q ≠ none) : q = p ∨ (fs p = some Node.dir ∧ isBelow p q = true) := by
  unfold rm at h1
  rw [hnf] at h1
  cases hp : fs p with
  | none => rw [hp] at h1; simp at h1; exact absurd h1 h2
  | some n =>
    rw [hp] at h1
    cases n with
    | file c =>
      by_cases hq : q = p
      · exact Or.inl hq
      · simp [hq] at h1; exact absurd h1 h2
    | dir =>
      by_cases hq : q = p ∨ isBelow p q = true
      · rcases hq with hq | hq
        · exact Or.inl hq
        · exact Or.inr ⟨rfl, hq⟩
      · simp only [if_true] at h1
        rw [if_neg hq] at h1
        exact absurd h1 h2

theorem rm_force_not_file (env : Env) (p : Path) (fs : FS) (c : Str)
    (hnf : env.rmFault p false fs = none) :
    (rm env p false true fs).2 p ≠ some (Node.file c) := by
  unfold rm
  rw [hnf]
  cases h : fs p with
  | none => simp [h]
  | some n => cases n <;> simp [h]

theorem rm_force_of_not_dir (env : Env) (p : Path) (fs : FS)
    (hnf : env.rmFault p false fs = none) (h : fs p ≠ some Node.dir) :
    (rm env p false true fs).2 p = none := by
  unfold rm
  rw [hnf]
  cases hp : fs p with
  | none => simp [hp]
  | some n =>
    cases n with
    | file c => simp
    | dir => exact absurd hp h

theorem isBelow_trans (a b c : Path) (h1 : isBelow a b = true) (h2 : isBelow b c = true) :
    isBelow a c = true := by
  unfold isBelow at h1 h2 ⊢
  rw [List.isPrefixOf_iff_prefix] at h1 h2 ⊢
  exact h1.trans ((List.prefix_append _ _).trans h2)

theorem promiseAll_pair_snd (a b : Eff Unit) (fs : FS) :
    (promiseAll [a, b] fs).2 = (b (a fs).2).2 := by
  simp only [promiseAll]

theorem ensureInputExists_of_file (p : Path) (fs : FS) (c : Str) (h : fs p = some (Node.file c)) :
    ensureInputExists p fs = (Except.ok (), fs) := by
  simp [ensureInputExists, stat, h]

theorem convert_snd_of_valid (env : Env) (options : ConvertOptions) (token : String) (fs : FS)
    (c : Str) (hvalid : fs (workspace env options token).inputPath = some (Node.file c)) :
    (convertMarkdownToPdf env options token fs).2 =
      if options.keepTemp = false then
        (rm env (workspace env options token).tempArtefactsDir true true
          (rm env (workspace env options token).tempMarkdownPath true true
            (tryCatch env options (workspace env options token) fs).2).2).2
      else (tryCatch env options (workspace env options token) fs).2 := by
  unfold convertMarkdownToPdf
  simp only [ensureInputExists_of_file _ _ _ hvalid]
  split_ifs with hk
  · have := promiseAll_pair_snd (rm env (workspace env options token).tempMarkdownPath true true)
      (rm env (workspace env options token).tempArtefactsDir true true)
      (tryCatch env options (workspace env options token) fs).2
    simp only [List.map] at this ⊢
    rw [← this]
    cases promiseAll [rm env (workspace env options token).tempMarkdownPath true true,
      rm env (workspace env options token).tempArtefactsDir true true]
      (tryCatch env options (workspace env options token) fs).2 with
    | mk r3 fs3 => cases r3 <;> rfl
  · rfl

theorem convert_of_valid_keep (env : Env) (options : ConvertOptions) (token : String) (fs : FS)
    (c : Str) (hvalid : fs (workspace env options token).inputPath = some (Node.file c))
    (hk : options.keepTemp = true) :
    convertMarkdownToPdf env options token fs =
      tryCatch env options (workspace env options token) fs := by
  unfold convertMarkdownToPdf
  simp [ensureInputExists_of_file _ _ _ hvalid, hk]

theorem tryCatch_snd_other (env : Env) (options : ConvertOptions) (w : Workspace) (fs : FS)
    (p : Path) (hp : p ≠ w.outputPath) :
    (tryCatch env options w fs).2 p = (tryBody env options w fs).2 p := by
  unfold tryCatch
  cases h : tryBody env options w fs with
  | mk r fs1 =>
    cases r with
    | ok v => rfl
    | error e =>
      simp only
      have := rm_force_other env w.outputPath p fs1 hp
      cases hr : rm env w.outputPath false true fs1 with
      | mk r2 fs2 =>
        rw [hr] at this
        cases r2 <;> exact this

theorem tryCatch_of_error (env : Env) (options : ConvertOptions) (w : Workspace) (fs : FS)
    (e : Thrown) (h : (tryBody env options w fs).1 = Except.error e) :
    (tryCatch env options w fs).2 =
        (rm env w.outputPath false true (tryBody env options w fs).2).2 ∧
      ∃ e2, (tryCatch env options w fs).1 = Except.error e2 := by
  unfold tryCatch
  cases hb : tryBody env options w fs with
  | mk r fs1 =>
    rw [hb] at h
    cases r with
    | ok v => simp at h
    | error e1 =>
      simp only
      cases hr : rm env w.outputPath false true fs1 with
      | mk r2 fs2 =>
        cases r2 with
        | ok u => exact ⟨rfl, e1, rfl⟩
        | error e2 => exact ⟨rfl, e2, rfl⟩

theorem convert_fst_of_error (env : Env) (options : ConvertOptions) (token : String) (fs : FS)
    (c : Str) (hvalid : fs (workspace env options token).inputPath = some (Node.file c))
    (e : Thrown)
    (h : (tryCatch env options (workspace env options token) fs).1 = Except.error e) :
    ∃ e2, (convertMarkdownToPdf env options token fs).1 = Except.error e2 := by
  unfold convertMarkdownToPdf
  simp only [ensureInputExists_of_file _ _ _ hvalid]
  cases hc : tryCatch env options (workspace env options token) fs with
  | mk r fs2 =>
    rw [hc] at h
    simp only at h
    subst h
    simp only
    split_ifs
    · cases promiseAll ([(workspace env options token).tempMarkdownPath,
        (workspace env options token).tempArtefactsDir].map
          (fun target => rm env target true true)) fs2 with
      | mk r3 fs3 =>
        cases r3 with
        | ok u => exact ⟨e, rfl⟩
        | error e3 => exact ⟨e3, rfl⟩
    · exact ⟨e, rfl⟩

/-! ## The claims about the pipeline -/

/-- C8 as stated fails: the phases succeed, `keepTemp` is not set, the temp
Markdown file is busy when the `finally` block wants to remove it: `rm`
rejects, the run rejects with that error, and the file is still there. -/
theorem busy_temp_file_remains :
    demoFS (workspace busyRmEnv (demoOptions false) "1-2-ab").inputPath
      = some (Node.file "# A\n".toList) ∧
    (demoOptions false).keepTemp = false ∧
    (workspace busyRmEnv (demoOptions false) "1-2-ab").tempMarkdownPath
      = "/doc/.a.md-mmd-pdf.1-2-ab.md" ∧
    (convertMarkdownToPdf busyRmEnv (demoOptions false) "1-2-ab" demoFS).1
      = Except.error (Thrown.error "EBUSY: resource busy or locked, rm") ∧
    (convertMarkdownToPdf busyRmEnv (demoOptions false) "1-2-ab" demoFS).2
        "/doc/.a.md-mmd-pdf.1-2-ab.md" = some (Node.file "# A\n\n".toList) := by
  refine ⟨rfl, rfl, rfl, rfl, rfl⟩

/-- C8, amended: for a request whose input passes validation, whatever the
phases do, provided `rm` is not refused on the two temp paths: without
`keepTemp` neither temp path exists when the run settles, nor anything
below the asset directory; with `keepTemp` the `finally` block removes
nothing, and every path other than the output path (which the `catch` of a
failed run removes) is as the phases left it. -/
theorem temp_cleanup (env : Env) (options : ConvertOptions) (token : String) (fs : FS)
    (c : Str) (hvalid : fs (workspace env options token).inputPath = some (Node.file c))
    (hrm : ∀ fs1 : FS,
      env.rmFault (workspace env options token).tempMarkdownPath true fs1 = none ∧
      env.rmFault (workspace env options token).tempArtefactsDir true fs1 = none) :
    (options.keepTemp = false →
      (convertMarkdownToPdf env options token fs).2
          (workspace env options token).tempMarkdownPath = none ∧
      (convertMarkdownToPdf env options token fs).2
          (workspace env options token).tempArtefactsDir = none ∧
      ∀ q : Path, isBelow (workspace env options token).tempArtefactsDir q = true →
        (tryCatch env options (workspace env options token) fs).2
          (workspace env options token).tempArtefactsDir = some Node.dir →
        (convertMarkdownToPdf env options token fs).2 q = none) ∧
    (options.keepTemp = true →
      convertMarkdownToPdf env options token fs =
          tryCatch env options (workspace env options token) fs ∧
      ∀ p : Path, p ≠ (workspace env options token).outputPath →
        (convertMarkdownToPdf env options token fs).2 p =
          (tryBody env options (workspace env options token) fs).2 p) := by
  constructor
  · intro hk
    rw [convert_snd_of_valid env options token fs c hvalid, if_pos hk]
    refine ⟨rm_snd_of_none _ _ _ _ _ _ (rm_recursive_force_self _ _ _ (hrm _).1),
      rm_recursive_force_self _ _ _ (hrm _).2, ?_⟩
    intro q hq hdir
    by_cases h1 : (rm env (workspace env options token).tempMarkdownPath true true
        (tryCatch env options (workspace env options token) fs).2).2
        (workspace env options token).tempArtefactsDir = some Node.dir
    · exact rm_recursive_force_below _ _ _ _ (hrm _).2 h1 hq
    · refine rm_snd_of_none _ _ _ _ _ _ ?_
      have h2 : (rm env (workspace env options token).tempMarkdownPath true true
          (tryCatch env options (workspace env options token) fs).2).2
          (workspace env options token).tempArtefactsDir = none := by
        rcases rm_snd_cases env (workspace env options token).tempMarkdownPath true true
          (tryCatch env options (workspace env options token) fs).2
          (workspace env options token).tempArtefactsDir with h3 | h3
        · exact h3
        · rw [h3] at h1; exact absurd hdir h1
      rcases rm_recursive_force_removed _ _ _ _ (hrm _).1 h2 (by rw [hdir]; simp) with h4 | h4
      · rw [h4] at hdir hq
        exact rm_recursive_force_below _ _ _ _ (hrm _).1 hdir hq
      · exact rm_recursive_force_below _ _ _ _ (hrm _).1 h4.1 (isBelow_trans _ _ _ h4.2 hq)
  · intro hk
    rw [convert_of_valid_keep env options token fs c hvalid hk]
    exact ⟨rfl, fun p hp => tryCatch_snd_other env options _ fs p hp⟩

/-- An instance of `temp_cleanup`: the conversion of `/doc/a.md` succeeds;
before the `finally` block the temp Markdown file, the asset directory and
a picture in it are there, afterwards none of them is. -/
theorem temp_cleanup_witness :
    ((tryCatch diagramEnv (demoOptions false)
        (workspace diagramEnv (demoOptions false) "1-2-ab") demoFS).2
        "/doc/.a.md-mmd-pdf.1-2-ab.md" = some (Node.file "# A\n\n".toList) ∧
      (tryCatch diagramEnv (demoOptions false)
        (workspace diagramEnv (demoOptions false) "1-2-ab") demoFS).2
        "/doc/.a.md-mmd-pdf.1-2-ab.artefacts" = some Node.dir ∧
      (tryCatch diagramEnv (demoOptions false)
        (workspace diagramEnv (demoOptions false) "1-2-ab") demoFS).2
        "/doc/.a.md-mmd-pdf.1-2-ab.artefacts/a-1.svg" = some (Node.file "<svg/>".toList)) ∧
    (convertMarkdownToPdf diagramEnv (demoOptions false) "1-2-ab" demoFS).2
        "/doc/.a.md-mmd-pdf.1-2-ab.md" = none ∧
    (convertMarkdownToPdf diagramEnv (demoOptions false) "1-2-ab" demoFS).2
        "/doc/.a.md-mmd-pdf.1-2-ab.artefacts" = none ∧
    (convertMarkdownToPdf diagramEnv (demoOptions false) "1-2-ab" demoFS).2
        "/doc/.a.md-mmd-pdf.1-2-ab.artefacts/a-1.svg" = none :=
  ⟨⟨rfl, rfl, rfl⟩,
    ((temp_cleanup diagramEnv (demoOptions false) "1-2-ab" demoFS "# A\n".toList rfl
      (fun _ => ⟨rfl, rfl⟩)).1 rfl).1,
    ((temp_cleanup diagramEnv (demoOptions false) "1-2-ab" demoFS "# A\n".toList rfl
      (fun _ => ⟨rfl, rfl⟩)).1 rfl).2.1,
    ((temp_cleanup diagramEnv (demoOptions false) "1-2-ab" demoFS "# A\n".toList rfl
      (fun _ => ⟨rfl, rfl⟩)).1 rfl).2.2 "/doc/.a.md-mmd-pdf.1-2-ab.artefacts/a-1.svg"
      (by decide) rfl⟩

/-- C9 as stated fails: in a read-only directory that holds a PDF of an
earlier run, `mkdir` fails, the `rm` of the `catch` is refused too, and the
old PDF is still at the output path after the failed run. -/
theorem stale_output_remains :
    staleFS (workspace readOnlyDirEnv (demoOptions false) "1-2-ab").inputPath
      = some (Node.file "# A\n".toList) ∧
    (workspace readOnlyDirEnv (demoOptions false) "1-2-ab").outputPath = "/doc/a.pdf" ∧
    (tryBody readOnlyDirEnv (demoOptions false)
      (workspace readOnlyDirEnv (demoOptions false) "1-2-ab") staleFS).1
      = Except.error (Thrown.error "EACCES: permission denied, mkdir") ∧
    (convertMarkdownToPdf readOnlyDirEnv (demoOptions false) "1-2-ab" staleFS).1
      = Except.error (Thrown.error "EACCES: permission denied, unlink") ∧
    (convertMarkdownToPdf readOnlyDirEnv (demoOptions false) "1-2-ab" staleFS).2 "/doc/a.pdf"
      = some (Node.file "%PDF old".toList) := by
  refine ⟨rfl, rfl, rfl, rfl, rfl⟩

/-- C9, amended: when a phase of a run whose input passes validation fails,
and `rm` is not refused on the output path, the run rejects, no file is at
the output path afterwards, and nothing at all is there unless the output
path is a directory. -/
theorem failed_run_leaves_no_output (env : Env) (options : ConvertOptions) (token : String)
    (fs : FS) (c : Str) (e : Thrown)
    (hvalid : fs (workspace env options token).inputPath = some (Node.file c))
    (hfail : (tryBody env options (workspace env options token) fs).1 = Except.error e)
    (hrm : ∀ fs1 : FS, env.rmFault (workspace env options token).outputPath false fs1 = none) :
    (∃ e2, (convertMarkdownToPdf env options token fs).1 = Except.error e2) ∧
    (∀ content : Str,
      (convertMarkdownToPdf env options token fs).2 (workspace env options token).outputPath
        ≠ some (Node.file content)) ∧
    ((tryBody env options (workspace env options token) fs).2
        (workspace env options token).outputPath ≠ some Node.dir →
      (convertMarkdownToPdf env options token fs).2 (workspace env options token).outputPath
        = none) := by
  obtain ⟨hfs, e1, he1⟩ := tryCatch_of_error env options _ fs e hfail
  refine ⟨convert_fst_of_error env options token fs c hvalid e1 he1, ?_, ?_⟩
  · intro content
    have h0 := rm_force_not_file env (workspace env options token).outputPath
      (tryBody env options (workspace env options token) fs).2 content (hrm _)
    rw [convert_snd_of_valid env options token fs c hvalid]
    split_ifs
    · rcases rm_snd_cases env (workspace env options token).tempArtefactsDir true true
        (rm env (workspace env options token).tempMarkdownPath true true
          (tryCatch env options (workspace env options token) fs).2).2
        (workspace env options token).outputPath with h1 | h1
      · rw [h1]; simp
      · rw [h1]
        rcases rm_snd_cases env (workspace env options token).tempMarkdownPath true true
          (tryCatch env options (workspace env options token) fs).2
          (workspace env options token).outputPath with h2 | h2
        · rw [h2]; simp
        · rw [h2, hfs]; exact h0
    · rw [hfs]; exact h0
  · intro hnd
    have h0 := rm_force_of_not_dir env _ _ (hrm _) hnd
    rw [convert_snd_of_valid env options token fs c hvalid]
    split_ifs
    · refine rm_snd_of_none _ _ _ _ _ _ (rm_snd_of_none _ _ _ _ _ _ ?_)
      rw [hfs]; exact h0
    · rw [hfs]; exact h0

/-- An instance of `failed_run_leaves_no_output`: `/doc/a.pdf` holds the PDF
of an earlier run, the diagram of `/doc/a.md` does not parse, and the old
PDF is gone after the failed run. -/
theorem failed_run_leaves_no_output_witness :
    staleFS "/doc/a.pdf" = some (Node.file "%PDF old".toList) ∧
    (workspace (demoEnv false 1) (demoOptions false) "1-2-ab").outputPath = "/doc/a.pdf" ∧
    (convertMarkdownToPdf (demoEnv false 1) (demoOptions false) "1-2-ab" staleFS).2
        (workspace (demoEnv false 1) (demoOptions false) "1-2-ab").outputPath = none :=
  ⟨rfl, rfl,
    (failed_run_leaves_no_output (demoEnv false 1) (demoOptions false) "1-2-ab" staleFS
      "# A\n".toList
      (Thrown.appError "Command exited with a non-zero status" "mermaid-render"
        (some ("node /pkg/node_modules/@mermaid-js/mermaid-cli/src/cli.js -i /doc/a.md " ++
          "-o /doc/.a.md-mmd-pdf.1-2-ab.md -a /doc/.a.md-mmd-pdf.1-2-ab.artefacts -e svg"))
        (some 1) (some "Parse error") Thrown.undefined)
      rfl rfl (fun _ => rfl)).2.2 (by decide)⟩

/-- C10: a failure of `mkdir` is not wrapped: when the temp asset directory
cannot be created, `convertMarkdownToPdf` rejects with the error of `mkdir`
itself, which is not an `AppError` and carries no stage. -/
theorem mkdir_failure_not_wrapped :
    (convertMarkdownToPdf (demoEnv true 0) (demoOptions false) "1-2-ab" demoFS).1 =
      Except.error (Thrown.error "EACCES: permission denied, mkdir") ∧
    isAppError (Thrown.error "EACCES: permission denied, mkdir") = false ∧
    (Thrown.error "EACCES: permission denied, mkdir").stage = none := by
  refine ⟨rfl, rfl, rfl⟩

theorem intercalate_pair (sep a b : String) : sep.intercalate [a, b] = a ++ sep ++ b := by
  rfl

theorem mergedCss_eq (u : JsObject) :
    mergedCss u =
      match u "css" with
      | some (JsVal.str s) => if s = "" then PAGE_BREAK_CSS else PAGE_BREAK_CSS ++ "\n\n" ++ s
      | _ => PAGE_BREAK_CSS := by
  have hP : PAGE_BREAK_CSS ≠ "" := by decide
  unfold mergedCss
  cases h : u "css" with
  | none => simp [hP, String.intercalate, String.intercalate.go]
  | some v =>
    cases v with
    | other id => simp [hP, String.intercalate, String.intercalate.go]
    | str s =>
      by_cases hs : s = ""
      · simp [hP, hs, String.intercalate, String.intercalate.go]
      · simp only [hs, if_false]
        simp [List.filter, hP, hs, intercalate_pair]

/-- C11: the configuration handed to the PDF renderer has `basedir` the
input directory, `dest` the output path, `css` the page-break CSS alone when
the user's `css` is absent, not a string or empty, and otherwise the
page-break CSS, a blank line and the user's CSS; every other property is
the user's. -/
theorem pdf_config_fields (u : JsObject) (d o : Path) :
    pdfConfig u d o "basedir" = some (JsVal.str d) ∧
    pdfConfig u d o "dest" = some (JsVal.str o) ∧
    pdfConfig u d o "css" = some (JsVal.str
      (match u "css" with
        | some (JsVal.str s) =>
          if s = "" then PAGE_BREAK_CSS else PAGE_BREAK_CSS ++ "\n\n" ++ s
        | _ => PAGE_BREAK_CSS)) ∧
    (∀ key : String, key ≠ "basedir" → key ≠ "dest" → key ≠ "css" →
      pdfConfig u d o key = u key) ∧
    (∀ (env : Env) (path : Path) (configPath : Option String) (fs fs1 : FS),
      env.importMdToPdf = ImportOutcome.callable →
      loadMdToPdfConfig env configPath fs = (Except.ok u, fs1) →
      renderPdf env path o d configPath fs =
        match env.mdToPdf path (pdfConfig u d o) fs1 with
        | (Except.error cause, fs2) =>
          (Except.error (Thrown.appError "md-to-pdf failed to generate output" "pdf-render"
            none none none cause), fs2)
        | (Except.ok _, fs2) => (Except.ok (), fs2)) := by
  refine ⟨by simp [pdfConfig], by simp [pdfConfig], ?_, ?_, ?_⟩
  · simp only [pdfConfig, if_true, mergedCss_eq]
  · intro key h1 h2 h3
    simp [pdfConfig, h1, h2, h3]
  · intro env path configPath fs fs1 himp hload
    unfold renderPdf
    rw [himp]
    simp only [hload]

/-- C12: the argument list of the diagram renderer is the entry point of
the Mermaid CLI, `-i` input, `-o` temp Markdown, `-a` asset directory, `-e
svg`, then `-c` and `-p` with the resolved paths when they are supplied (an
empty text counts as not supplied); and `renderMermaidMarkdown` starts the
child process `process.execPath` with exactly this list, its result being
that of the process. -/
theorem mermaid_command_args (env : Env) (mmdcPath i t a : Path) (mc pc : Option String) :
    mermaidCommandArgs env mmdcPath i t a mc pc =
      [mmdcPath, "-i", i, "-o", t, "-a", a, "-e", "svg"]
        ++ (match mc with
            | some p => if p = "" then [] else ["-c", env.resolve p]
            | none => [])
        ++ (match pc with
            | some p => if p = "" then [] else ["-p", env.resolve p]
            | none => []) ∧
    (∀ fs fs1 : FS, getMmdcPath env fs = (Except.ok mmdcPath, fs1) →
      mmdcPath =
          env.join [env.packageRoot, "node_modules", "@mermaid-js", "mermaid-cli", "src",
            "cli.js"] ∧
      renderMermaidMarkdown env i t a mc pc fs =
        match env.spawn env.execPath (mermaidCommandArgs env mmdcPath i t a mc pc) fs1 with
        | (ChildOutcome.failedToStart cause stderr, fs2) =>
          (Except.error (Thrown.appError ("Failed to start command: " ++ cause.message)
            "mermaid-render"
            (some (formatCommand env env.execPath
              (mermaidCommandArgs env mmdcPath i t a mc pc)))
            none (some stderr) cause), fs2)
        | (ChildOutcome.closed code _ stderr, fs2) =>
          if code = some 0 then (Except.ok (), fs2)
          else
            (Except.error (Thrown.appError "Command exited with a non-zero status"
              "mermaid-render"
              (some (formatCommand env env.execPath
                (mermaidCommandArgs env mmdcPath i t a mc pc)))
              code (some stderr) Thrown.undefined), fs2)) := by
  constructor
  · unfold mermaidCommandArgs
    cases mc with
    | none =>
      cases pc with
      | none => simp [isTruthy]
      | some q => by_cases hq : q = "" <;> simp [isTruthy, hq]
    | some p =>
      cases pc with
      | none => by_cases hp : p = "" <;> simp [isTruthy, hp]
      | some q =>
        by_cases hp : p = "" <;> by_cases hq : q = "" <;> simp [isTruthy, hp, hq]
  · intro fs fs1 hm
    constructor
    · unfold getMmdcPath at hm
      simp only at hm
      split at hm
      · simp at hm
      · split_ifs at hm
        · simp at hm
        · simp only [Prod.mk.injEq, Except.ok.injEq] at hm
          exact hm.1.symm
    · unfold renderMermaidMarkdown
      unfold Eff.andThen
      simp only [hm]
      unfold runCommand
      cases hs : env.spawn env.execPath (mermaidCommandArgs env mmdcPath i t a mc pc) fs1 with
      | mk outcome fs2 =>
        cases outcome with
        | failedToStart cause stderr => rfl
        | closed code stdout stderr =>
          by_cases hc : code = some 0
          · simp [hc]
          · simp [hc]

/-- C13: when the child closes with exit code `code` and the captured
texts `stdout` and `stderr`, `runCommand` resolves with the two texts exactly
when the code is 0, and for every other code it rejects with an `AppError`
of the caller's stage, that exit code and the whole `stderr`. -/
theorem run_command_exit (env : Env) (command : String) (args : List String) (stage : String)
    (fs fs1 : FS) (code : Option Int) (stdout stderr : String)
    (hclose : env.spawn command args fs = (ChildOutcome.closed code stdout stderr, fs1)) :
    ((runCommand env command args stage fs).1 = Except.ok (stdout, stderr) ↔ code = some 0) ∧
    (code = some 0 → runCommand env command args stage fs = (Except.ok (stdout, stderr), fs1)) ∧
    (∀ c : Int, code = some c → c ≠ 0 →
      runCommand env command args stage fs =
        (Except.error (Thrown.appError "Command exited with a non-zero status" stage
          (some (formatCommand env command args)) (some c) (some stderr) Thrown.undefined),
          fs1)) := by
  unfold runCommand
  rw [hclose]
  simp only
  refine ⟨?_, ?_, ?_⟩
  · by_cases h : code = some 0
    · simp [h]
    · simp [h]
  · intro h; simp [h]
  · intro c hc hne
    subst hc
    simp [hne]

/-- An instance of `run_command_exit`: the renderer exits with code 1. -/
theorem run_command_exit_witness :
    ((runCommand (demoEnv false 1) "node" ["cli.js"] "mermaid-render" demoFS).1
        = Except.ok ("", "Parse error") ↔ some (1 : Int) = some 0) ∧
    (some (1 : Int) = some 0 →
      runCommand (demoEnv false 1) "node" ["cli.js"] "mermaid-render" demoFS =
        (Except.ok ("", "Parse error"), demoFS)) ∧
    (∀ c : Int, some (1 : Int) = some c → c ≠ 0 →
      runCommand (demoEnv false 1) "node" ["cli.js"] "mermaid-render" demoFS =
        (Except.error (Thrown.appError "Command exited with a non-zero status" "mermaid-render"
          (some (formatCommand (demoEnv false 1) "node" ["cli.js"])) (some c)
          (some "Parse error") Thrown.undefined), demoFS)) :=
  run_command_exit (demoEnv false 1) "node" ["cli.js"] "mermaid-render" demoFS demoFS
    (some 1) "" "Parse error" rfl

/-! ## Lemmas about `trimToSingleLine` -/

theorem mem_collapseSpaceRuns (b : Bool) (s : Units) (u : Nat)
    (h : u ∈ collapseSpaceRuns b s) : u = 0x20 ∨ (u ∈ s ∧ isSpaceUnit u = false) := by
  induction s generalizing b with
  | nil => simp [collapseSpaceRuns] at h
  | cons x xs ih =>
    unfold collapseSpaceRuns at h
    split_ifs at h with h1 h2
    · rcases ih true h with h3 | h3
      · exact Or.inl h3
      · exact Or.inr ⟨List.mem_cons_of_mem _ h3.1, h3.2⟩
    · rcases List.mem_cons.1 h with h3 | h3
      · exact Or.inl h3
      · rcases ih true h3 with h4 | h4
        · exact Or.inl h4
        · exact Or.inr ⟨List.mem_cons_of_mem _ h4.1, h4.2⟩
    · rcases List.mem_cons.1 h with h3 | h3
      · subst h3
        exact Or.inr ⟨List.mem_cons_self _ _, by simpa using h1⟩
      · rcases ih false h3 with h4 | h4
        · exact Or.inl h4
        · exact Or.inr ⟨List.mem_cons_of_mem _ h4.1, h4.2⟩

theorem jsTrim_eq (s : Units) :
    jsTrim s = (s.dropWhile isSpaceUnit).rdropWhile isSpaceUnit := rfl

theorem mem_jsTrim (s : Units) (u : Nat) (h : u ∈ jsTrim s) : u ∈ s := by
  rw [jsTrim_eq] at h
  exact (List.dropWhile_sublist _).subset ((List.rdropWhile_prefix isSpaceUnit _).subset h)

theorem isLineTerminator_imp_space (u : Nat) (h : isLineTerminator u = true) :
    isSpaceUnit u = true := by
  unfold isLineTerminator at h
  unfold isSpaceUnit
  simp only [Bool.or_eq_true, decide_eq_true_eq] at h ⊢
  rcases h with ((h | h) | h) | h <;> simp [h]

theorem mem_normalized (s : Units) (u : Nat)
    (h : u ∈ jsTrim (collapseSpaceRuns false s)) : isLineTerminator u = false := by
  rcases mem_collapseSpaceRuns false s u (mem_jsTrim _ _ h) with h1 | h1
  · subst h1; decide
  · by_contra hc
    simp only [Bool.not_eq_false] at hc
    rw [isLineTerminator_imp_space u hc] at h1
    exact absurd h1.2 (by simp)

theorem trimToSingleLine_length (s : Units) : (trimToSingleLine s).length ≤ 400 := by
  unfold trimToSingleLine
  simp only
  split_ifs with h
  · exact h
  · have : (utf16 "...").length = 3 := by decide
    rw [List.length_append, List.length_take, this]
    omega

theorem trimToSingleLine_no_line_break (s : Units) :
    ∀ u ∈ trimToSingleLine s, isLineTerminator u = false := by
  unfold trimToSingleLine
  simp only
  intro u hu
  split_ifs at hu with h
  · exact mem_normalized s u hu
  · rcases List.mem_append.1 hu with h1 | h1
    · exact mem_normalized s u (List.mem_of_mem_take h1)
    · have : utf16 "..." = [0x2E, 0x2E, 0x2E] := by decide
      rw [this] at h1
      simp only [List.mem_cons, List.mem_singleton, List.not_mem_nil, or_false, or_self] at h1
      subst h1
      decide

theorem filter_collapseSpaceRuns (b : Bool) (s : Units) :
    (collapseSpaceRuns b s).filter (fun u => !isSpaceUnit u) =
      s.filter (fun u => !isSpaceUnit u) := by
  induction s generalizing b with
  | nil => rfl
  | cons x xs ih =>
    unfold collapseSpaceRuns
    have h20 : isSpaceUnit 0x20 = true := by decide
    split_ifs with h1 h2
    · simp [List.filter_cons, h1, ih]
    · simp [List.filter_cons, h1, h20, ih]
    · simp [List.filter_cons, h1, ih]

theorem filter_dropWhile_not (p : Nat → Bool) (s : Units) :
    (s.dropWhile p).filter (fun u => !p u) = s.filter (fun u => !p u) := by
  induction s with
  | nil => rfl
  | cons x xs ih =>
    by_cases h : p x = true
    · simp [List.dropWhile_cons, List.filter_cons, h, ih]
    · simp [List.dropWhile_cons, h]

theorem filter_jsTrim (s : Units) :
    (jsTrim s).filter (fun u => !isSpaceUnit u) = s.filter (fun u => !isSpaceUnit u) := by
  unfold jsTrim
  rw [List.filter_reverse, filter_dropWhile_not, List.filter_reverse, List.reverse_reverse,
    filter_dropWhile_not]

theorem jsTrim_ends (s : Units) :
    (∀ u, (jsTrim s).head? = some u → isSpaceUnit u = false) ∧
    (∀ u, (jsTrim s).getLast? = some u → isSpaceUnit u = false) := by
  constructor
  · intro u hu
    rw [jsTrim_eq] at hu
    obtain ⟨t, ht⟩ := List.rdropWhile_prefix isSpaceUnit (s.dropWhile isSpaceUnit)
    have h0 := List.head?_dropWhile_not isSpaceUnit s
    rw [← ht] at h0
    cases hr : List.rdropWhile isSpaceUnit (List.dropWhile isSpaceUnit s) with
    | nil => rw [hr] at hu; simp at hu
    | cons x xs =>
      rw [hr] at hu h0
      simp only [List.head?_cons, Option.some.injEq] at hu
      subst hu
      simpa using h0
  · intro u hu
    rw [jsTrim_eq] at hu
    have hne : List.rdropWhile isSpaceUnit (List.dropWhile isSpaceUnit s) ≠ [] := by
      intro h; rw [h] at hu; simp at hu
    have := List.rdropWhile_last_not isSpaceUnit _ hne
    rw [List.getLast?_eq_getLast _ hne] at hu
    simp only [Option.some.injEq] at hu
    rw [hu] at this
    simpa using this

theorem joinUnits_concat (ls : List Units) (x : Units) (h : ls ≠ []) :
    joinUnits (ls ++ [x]) = joinUnits ls ++ 0x0A :: x := by
  induction ls with
  | nil => exact absurd rfl h
  | cons l rest ih =>
    cases rest with
    | nil => rfl
    | cons l2 r =>
      have := ih (by simp)
      show l ++ 0x0A :: joinUnits ((l2 :: r) ++ [x]) =
        (l ++ 0x0A :: joinUnits (l2 :: r)) ++ 0x0A :: x
      rw [this]
      simp

theorem formatErrorLines_stderr (message stage : String) (command : Option String)
    (exitCode : Option Int) (s : String) (hs : s ≠ "") :
    formatErrorLines message stage command exitCode (some s) =
      formatErrorLines message stage command exitCode none ++
        [utf16 "Details: " ++ trimToSingleLine (utf16 s)] := by
  have hd : decide (s ≠ "") = true := by simpa using hs
  simp only [formatErrorLines, isTruthy, hd, Option.getD_some, if_true, List.append_assoc,
    Bool.false_eq_true, if_false, List.append_nil]

theorem formatErrorLines_ne_nil (message stage : String) (command : Option String)
    (exitCode : Option Int) (stderr : Option String) :
    formatErrorLines message stage command exitCode stderr ≠ [] := by
  simp [formatErrorLines]

/-- C14: for an `AppError` with non-empty `stderr`, the text of `formatError`
is the text for the same failure without `stderr`, a line feed, `Details: `
and `trimToSingleLine(stderr)`; that last text has at most 400 code units
and no line terminator; it is the collapsed and trimmed text when that has
at most 400 code units, and otherwise its first 397 code units followed by
three dots.  The collapsed and trimmed text keeps the code units of
`stderr` that are not white space, in order; its only white space is the
space, and it neither starts nor ends with one. -/
theorem details_line (message stage : String) (command : Option String)
    (exitCode : Option Int) (cause : Thrown) (s : String) (hs : s ≠ "") :
    formatError (Thrown.appError message stage command exitCode (some s) cause) =
      formatError (Thrown.appError message stage command exitCode none cause) ++
        0x0A :: (utf16 "Details: " ++ trimToSingleLine (utf16 s)) ∧
    (trimToSingleLine (utf16 s)).length ≤ 400 ∧
    (∀ u ∈ trimToSingleLine (utf16 s), isLineTerminator u = false) ∧
    ((jsTrim (collapseSpaceRuns false (utf16 s))).length ≤ 400 →
      trimToSingleLine (utf16 s) = jsTrim (collapseSpaceRuns false (utf16 s))) ∧
    (400 < (jsTrim (collapseSpaceRuns false (utf16 s))).length →
      trimToSingleLine (utf16 s) =
        (jsTrim (collapseSpaceRuns false (utf16 s))).take 397 ++ utf16 "...") ∧
    (jsTrim (collapseSpaceRuns false (utf16 s))).filter (fun u => !isSpaceUnit u) =
      (utf16 s).filter (fun u => !isSpaceUnit u) ∧
    (∀ u ∈ jsTrim (collapseSpaceRuns false (utf16 s)), isSpaceUnit u = true → u = 0x20) ∧
    (∀ u, (jsTrim (collapseSpaceRuns false (utf16 s))).head? = some u →
      isSpaceUnit u = false) ∧
    (∀ u, (jsTrim (collapseSpaceRuns false (utf16 s))).getLast? = some u →
      isSpaceUnit u = false) := by
  refine ⟨?_, trimToSingleLine_length _, trimToSingleLine_no_line_break _, ?_, ?_, ?_, ?_,
    (jsTrim_ends _).1, (jsTrim_ends _).2⟩
  · show joinUnits (formatErrorLines message stage command exitCode (some s)) =
      joinUnits (formatErrorLines message stage command exitCode none) ++
        0x0A :: (utf16 "Details: " ++ trimToSingleLine (utf16 s))
    rw [formatErrorLines_stderr _ _ _ _ _ hs,
      joinUnits_concat _ _ (formatErrorLines_ne_nil _ _ _ _ _)]
  · intro h
    unfold trimToSingleLine
    simp only [h, if_true]
  · intro h
    unfold trimToSingleLine
    have : ¬ (jsTrim (collapseSpaceRuns false (utf16 s))).length ≤ 400 := by omega
    simp only [this, if_false]
  · rw [filter_jsTrim, filter_collapseSpaceRuns]
  · intro u hu hsp
    rcases mem_collapseSpaceRuns false _ u (mem_jsTrim _ _ hu) with h1 | h1
    · exact h1
    · rw [hsp] at h1
      exact absurd h1.2 (by simp)

/-- An instance of `details_line`: two lines of captured error output. -/
theorem details_line_witness :
    formatError (Thrown.appError "Command exited with a non-zero status" "mermaid-render"
        none (some 1) (some "Parse error\n  on line 2\n") Thrown.undefined) =
      formatError (Thrown.appError "Command exited with a non-zero status" "mermaid-render"
        none (some 1) none Thrown.undefined) ++
        0x0A :: (utf16 "Details: " ++ trimToSingleLine (utf16 "Parse error\n  on line 2\n")) ∧
    trimToSingleLine (utf16 "Parse error\n  on line 2\n") = utf16 "Parse error on line 2" ∧
    formatError (Thrown.appError "Command exited with a non-zero status" "mermaid-render"
        none (some 1) (some "Parse error\n  on line 2\n") Thrown.undefined) =
      utf16 ("Error [mermaid-render]: Command exited with a non-zero status\n" ++
        "Exit code: 1\nDetails: Parse error on line 2") :=
  ⟨(details_line "Command exited with a non-zero status" "mermaid-render" none (some 1)
      Thrown.undefined "Parse error\n  on line 2\n" (by decide)).1, by decide, by decide⟩

/-! ## Lemmas about `parseArgs` -/

/-- What the loop of `parseArgs` does with the element at the front: a flag
sets an option and goes on; an option with a value fails when the next
element is missing or bad and otherwise stores it and skips it; another
element that starts with a dash fails; anything else is a positional. -/
theorem parseLoop_cons (o : CliOptions) (p : List String) (arg : String) :
    (∃ o1 : CliOptions, arg ∈ KNOWN_OPTIONS ∧
        ∀ rest, parseLoop o p (arg :: rest) = parseLoop o1 p rest) ∨
    (arg ∈ VALUE_OPTIONS ∧ arg ∈ KNOWN_OPTIONS ∧
        parseLoop o p [arg] = Except.error ("Missing value for " ++ arg) ∧
        ∃ f : String → CliOptions, ∀ value rest,
          parseLoop o p (arg :: value :: rest) =
            if isBadValue value = true then Except.error ("Missing value for " ++ arg)
            else parseLoop (f value) p rest) ∨
    (startsWithDash arg = true ∧ arg ∉ KNOWN_OPTIONS ∧
        ∀ rest, parseLoop o p (arg :: rest) = Except.error ("Unknown option: " ++ arg)) ∨
    (startsWithDash arg = false ∧
        ∀ rest, parseLoop o p (arg :: rest) = parseLoop o (p ++ [arg]) rest) := by
  by_cases h1 : arg = "-h" ∨ arg = "--help"
  · refine Or.inl ⟨{ o with help := true }, by rcases h1 with h | h <;> simp [KNOWN_OPTIONS, h], fun rest => ?_⟩
    cases rest with
    | nil => rw [parseLoop.eq_2, if_pos h1]
    | cons v r => rw [parseLoop.eq_3, if_pos h1]
  by_cases h2 : arg = "-v" ∨ arg = "--version"
  · refine Or.inl ⟨{ o with version := true }, by rcases h2 with h | h <;> simp [KNOWN_OPTIONS, h], fun rest => ?_⟩
    cases rest with
    | nil => rw [parseLoop.eq_2, if_neg h1, if_pos h2]
    | cons v r => rw [parseLoop.eq_3, if_neg h1, if_pos h2]
  by_cases h3 : arg = "--verbose"
  · refine Or.inl ⟨{ o with verbose := true }, by simp [KNOWN_OPTIONS, h3], fun rest => ?_⟩
    cases rest with
    | nil => rw [parseLoop.eq_2, if_neg h1, if_neg h2, if_pos h3]
    | cons v r => rw [parseLoop.eq_3, if_neg h1, if_neg h2, if_pos h3]
  by_cases h4 : arg = "--keep-temp"
  · refine Or.inl ⟨{ o with keepTemp := true }, by simp [KNOWN_OPTIONS, h4], fun rest => ?_⟩
    cases rest with
    | nil => rw [parseLoop.eq_2, if_neg h1, if_neg h2, if_neg h3, if_pos h4]
    | cons v r => rw [parseLoop.eq_3, if_neg h1, if_neg h2, if_neg h3, if_pos h4]
  by_cases h5 : arg = "-o" ∨ arg = "--output"
  · refine Or.inr (Or.inl ⟨by rcases h5 with h | h <;> simp [VALUE_OPTIONS, h],
      by rcases h5 with h | h <;> simp [KNOWN_OPTIONS, h], ?_,
      fun value => { o with outputPath := some value }, fun value rest => ?_⟩)
    · rw [parseLoop.eq_2, if_neg h1, if_neg h2, if_neg h3, if_neg h4, if_pos h5]
    · rw [parseLoop.eq_3, if_neg h1, if_neg h2, if_neg h3, if_neg h4, if_pos h5]
  by_cases h6 : arg = "--config"
  · refine Or.inr (Or.inl ⟨by simp [VALUE_OPTIONS, h6], by simp [KNOWN_OPTIONS, h6], ?_,
      fun value => { o with configPath := some value }, fun value rest => ?_⟩)
    · rw [parseLoop.eq_2, if_neg h1, if_neg h2, if_neg h3, if_neg h4, if_neg h5, if_pos h6, h6]
      rfl
    · rw [parseLoop.eq_3, if_neg h1, if_neg h2, if_neg h3, if_neg h4, if_neg h5, if_pos h6, h6]
      rfl
  by_cases h7 : arg = "--mermaid-config"
  · refine Or.inr (Or.inl ⟨by simp [VALUE_OPTIONS, h7], by simp [KNOWN_OPTIONS, h7], ?_,
      fun value => { o with mermaidConfigPath := some value }, fun value rest => ?_⟩)
    · rw [parseLoop.eq_2, if_neg h1, if_neg h2, if_neg h3, if_neg h4, if_neg h5, if_neg h6,
        if_pos h7, h7]
      rfl
    · rw [parseLoop.eq_3, if_neg h1, if_neg h2, if_neg h3, if_neg h4, if_neg h5, if_neg h6,
        if_pos h7, h7]
      rfl
  by_cases h8 : arg = "--puppeteer-config"
  · refine Or.inr (Or.inl ⟨by simp [VALUE_OPTIONS, h8], by simp [KNOWN_OPTIONS, h8], ?_,
      fun value => { o with puppeteerConfigPath := some value }, fun value rest => ?_⟩)
    · rw [parseLoop.eq_2, if_neg h1, if_neg h2, if_neg h3, if_neg h4, if_neg h5, if_neg h6,
        if_neg h7, if_pos h8, h8]
      rfl
    · rw [parseLoop.eq_3, if_neg h1, if_neg h2, if_neg h3, if_neg h4, if_neg h5, if_neg h6,
        if_neg h7, if_pos h8, h8]
      rfl
  by_cases h9 : startsWithDash arg = true
  · refine Or.inr (Or.inr (Or.inl ⟨h9, ?_, fun rest => ?_⟩))
    · simp only [KNOWN_OPTIONS, List.mem_cons, List.mem_singleton, List.not_mem_nil, or_false]
      tauto
    · cases rest with
      | nil =>
        rw [parseLoop.eq_2, if_neg h1, if_neg h2, if_neg h3, if_neg h4, if_neg h5, if_neg h6,
          if_neg h7, if_neg h8, if_pos h9]
      | cons v r =>
        rw [parseLoop.eq_3, if_neg h1, if_neg h2, if_neg h3, if_neg h4, if_neg h5, if_neg h6,
          if_neg h7, if_neg h8, if_pos h9]
  · refine Or.inr (Or.inr (Or.inr ⟨by simpa using h9, fun rest => ?_⟩))
    cases rest with
    | nil =>
      rw [parseLoop.eq_2, if_neg h1, if_neg h2, if_neg h3, if_neg h4, if_neg h5, if_neg h6,
        if_neg h7, if_neg h8, if_neg h9]
    | cons v r =>
      rw [parseLoop.eq_3, if_neg h1, if_neg h2, if_neg h3, if_neg h4, if_neg h5, if_neg h6,
        if_neg h7, if_neg h8, if_neg h9]


theorem parseLoop_append (n : Nat) :
    ∀ (argv : List String) (o : CliOptions) (p : List String) (o2 : CliOptions)
      (p2 tail : List String), argv.length ≤ n →
      parseLoop o p argv = Except.ok (o2, p2) →
      parseLoop o p (argv ++ tail) = parseLoop o2 p2 tail := by
  induction n with
  | zero =>
    intro argv o p o2 p2 tail hn h
    have : argv = [] := List.length_eq_zero.1 (Nat.le_zero.1 hn)
    subst this
    rw [parseLoop.eq_1] at h
    simp only [Except.ok.injEq, Prod.mk.injEq] at h
    rw [h.1, h.2]; rfl
  | succ n ih =>
    intro argv o p o2 p2 tail hn h
    cases argv with
    | nil =>
      rw [parseLoop.eq_1] at h
      simp only [Except.ok.injEq, Prod.mk.injEq] at h
      rw [h.1, h.2]; rfl
    | cons arg rest =>
      have hrest : rest.length ≤ n := by simpa using hn
      rcases parseLoop_cons o p arg with
        ⟨o1, _, hstep⟩ | ⟨_, _, hlast, f, hval⟩ | ⟨_, _, herr⟩ | ⟨_, hpos⟩
      · rw [hstep] at h
        rw [List.cons_append, hstep]
        exact ih rest _ _ _ _ tail hrest h
      · cases rest with
        | nil => rw [hlast] at h; exact absurd h (by simp)
        | cons value rest2 =>
          have hrest2 : rest2.length ≤ n := by
            simp only [List.length_cons] at hrest; omega
          rw [hval] at h
          simp only [List.cons_append]
          rw [hval]
          by_cases hb : isBadValue value = true
          · rw [if_pos hb] at h; exact absurd h (by simp)
          · rw [if_neg hb] at h ⊢
            exact ih rest2 _ _ _ _ tail hrest2 h
      · rw [herr] at h; exact absurd h (by simp)
      · rw [hpos] at h
        rw [List.cons_append, hpos]
        exact ih rest _ _ _ _ tail hrest h

theorem parseLoop_known (n : Nat) :
    ∀ (argv : List String) (o : CliOptions) (p : List String) (r : CliOptions × List String),
      argv.length ≤ n → parseLoop o p argv = Except.ok r →
      ∀ a ∈ argv, startsWithDash a = true → a ∈ KNOWN_OPTIONS := by
  induction n with
  | zero =>
    intro argv o p r hn h a ha
    have : argv = [] := List.length_eq_zero.1 (Nat.le_zero.1 hn)
    subst this
    simp at ha
  | succ n ih =>
    intro argv o p r hn h a ha hd
    cases argv with
    | nil => simp at ha
    | cons arg rest =>
      have hrest : rest.length ≤ n := by simpa using hn
      rcases parseLoop_cons o p arg with
        ⟨o1, hk, hstep⟩ | ⟨_, hk, hlast, f, hval⟩ | ⟨_, _, herr⟩ | ⟨hnd, hpos⟩
      · rw [hstep] at h
        rcases List.mem_cons.1 ha with rfl | hm
        · exact hk
        · exact ih rest _ _ _ hrest h a hm hd
      · cases rest with
        | nil => rw [hlast] at h; exact absurd h (by simp)
        | cons value rest2 =>
          have hrest2 : rest2.length ≤ n := by
            simp only [List.length_cons] at hrest; omega
          rw [hval] at h
          by_cases hb : isBadValue value = true
          · rw [if_pos hb] at h; exact absurd h (by simp)
          · rw [if_neg hb] at h
            rcases List.mem_cons.1 ha with rfl | hm
            · exact hk
            · rcases List.mem_cons.1 hm with rfl | hm2
              · exfalso
                apply hb
                simp [isBadValue, hd]
              · exact ih rest2 _ _ _ hrest2 h a hm2 hd
      · rw [herr] at h; exact absurd h (by simp)
      · rw [hpos] at h
        rcases List.mem_cons.1 ha with rfl | hm
        · rw [hnd] at hd; exact absurd hd (by simp)
        · exact ih rest _ _ _ hrest h a hm hd

theorem parseArgs_ok_loop (argv : List String) (r : CliOptions)
    (h : parseArgs argv = Except.ok r) :
    ∃ o p, parseLoop CliOptions.initial [] argv = Except.ok (o, p) := by
  unfold parseArgs at h
  cases hl : parseLoop CliOptions.initial [] argv with
  | error e => rw [hl] at h; simp at h
  | ok v => exact ⟨v.1, v.2, rfl⟩

theorem parseArgs_of_loop_error (argv : List String) (e : String)
    (h : parseLoop CliOptions.initial [] argv = Except.error e) :
    parseArgs argv = Except.error e := by
  unfold parseArgs
  rw [h]

theorem known_startsWithDash (a : String) (h : a ∈ KNOWN_OPTIONS) :
    startsWithDash a = true := by
  simp only [KNOWN_OPTIONS, List.mem_cons, List.mem_singleton, List.not_mem_nil, or_false] at h
  rcases h with rfl | rfl | rfl | rfl | rfl | rfl | rfl | rfl | rfl | rfl | rfl <;> decide

theorem parseLoop_unknown (o : CliOptions) (p : List String) (u : String)
    (hd : startsWithDash u = true) (hu : u ∉ KNOWN_OPTIONS) :
    parseLoop o p [u] = Except.error ("Unknown option: " ++ u) := by
  rcases parseLoop_cons o p u with
    ⟨o1, hk, _⟩ | ⟨_, hk, _, _, _⟩ | ⟨_, _, herr⟩ | ⟨hnd, _⟩
  · exact absurd hk hu
  · exact absurd hk hu
  · exact herr []
  · rw [hnd] at hd; exact absurd hd (by simp)

theorem parseLoop_missing (o : CliOptions) (p : List String) (opt : String)
    (ho : opt ∈ VALUE_OPTIONS) :
    parseLoop o p [opt] = Except.error ("Missing value for " ++ opt) ∧
    ∀ w rest, isBadValue w = true →
      parseLoop o p (opt :: w :: rest) = Except.error ("Missing value for " ++ opt) := by
  simp only [VALUE_OPTIONS, List.mem_cons, List.mem_singleton, List.not_mem_nil, or_false] at ho
  constructor
  · rcases ho with rfl | rfl | rfl | rfl | rfl <;> rfl
  · intro w rest hw
    rcases ho with rfl | rfl | rfl | rfl | rfl <;>
      · rw [parseLoop.eq_3]
        simp [hw]


/-! ## The claims about `parseArgs` -/

/-- C15: in an argument list that `parseArgs` accepts, every element that
starts with a dash is a known option; and an accepted list followed by an
unknown element that starts with a dash is rejected with
`Unknown option: ` and that element. -/
theorem unknown_option_rejected (argv : List String) (r : CliOptions)
    (hok : parseArgs argv = Except.ok r) :
    (∀ a ∈ argv, startsWithDash a = true → a ∈ KNOWN_OPTIONS) ∧
    (∀ u : String, startsWithDash u = true → u ∉ KNOWN_OPTIONS →
      parseArgs (argv ++ [u]) = Except.error ("Unknown option: " ++ u)) := by
  obtain ⟨o, p, hl⟩ := parseArgs_ok_loop argv r hok
  constructor
  · exact parseLoop_known argv.length argv _ _ _ (Nat.le_refl _) hl
  · intro u hd hu
    apply parseArgs_of_loop_error
    rw [parseLoop_append argv.length argv _ _ o p [u] (Nat.le_refl _) hl]
    exact parseLoop_unknown o p u hd hu

/-- An instance of `unknown_option_rejected`: the list of the unit test. -/
theorem unknown_option_rejected_witness :
    (∀ a ∈ ["input.md", "--verbose"], startsWithDash a = true → a ∈ KNOWN_OPTIONS) ∧
    (∀ u : String, startsWithDash u = true → u ∉ KNOWN_OPTIONS →
      parseArgs (["input.md", "--verbose"] ++ [u]) = Except.error ("Unknown option: " ++ u)) :=
  unknown_option_rejected ["input.md", "--verbose"]
    { CliOptions.initial with inputPath := "input.md", verbose := true } rfl

/-- C16: an accepted argument list followed by an option that takes a
value, with nothing after it or with an element after it that is empty or
starts with a dash, is rejected with `Missing value for ` and the option. -/
theorem missing_value_rejected (argv : List String) (r : CliOptions) (opt : String)
    (hok : parseArgs argv = Except.ok r) (ho : opt ∈ VALUE_OPTIONS) :
    parseArgs (argv ++ [opt]) = Except.error ("Missing value for " ++ opt) ∧
    (∀ (w : String) (rest : List String), (w = "" ∨ startsWithDash w = true) →
      parseArgs (argv ++ [opt, w] ++ rest) = Except.error ("Missing value for " ++ opt)) := by
  obtain ⟨o, p, hl⟩ := parseArgs_ok_loop argv r hok
  constructor
  · apply parseArgs_of_loop_error
    rw [parseLoop_append argv.length argv _ _ o p [opt] (Nat.le_refl _) hl]
    exact (parseLoop_missing o p opt ho).1
  · intro w rest hw
    apply parseArgs_of_loop_error
    rw [List.append_assoc,
      parseLoop_append argv.length argv _ _ o p ([opt, w] ++ rest) (Nat.le_refl _) hl]
    refine (parseLoop_missing o p opt ho).2 w rest ?_
    rcases hw with hw | hw <;> simp [isBadValue, hw]

/-- An instance of `missing_value_rejected`: the list of the unit test. -/
theorem missing_value_rejected_witness :
    parseArgs (["input.md"] ++ ["--config"]) = Except.error ("Missing value for " ++ "--config") ∧
    (∀ (w : String) (rest : List String), (w = "" ∨ startsWithDash w = true) →
      parseArgs (["input.md"] ++ ["--config", w] ++ rest) =
        Except.error ("Missing value for " ++ "--config")) :=
  missing_value_rejected ["input.md"] { CliOptions.initial with inputPath := "input.md" }
    "--config" rfl (by decide)

theorem parseLoop_positional (o : CliOptions) (p rest : List String) (arg : String)
    (hd : startsWithDash arg = false) :
    parseLoop o p (arg :: rest) = parseLoop o (p ++ [arg]) rest := by
  rcases parseLoop_cons o p arg with
    ⟨o1, hk, _⟩ | ⟨_, hk, _, _, _⟩ | ⟨h9, _, _⟩ | ⟨_, hpos⟩
  · rw [known_startsWithDash arg hk] at hd; exact absurd hd (by simp)
  · rw [known_startsWithDash arg hk] at hd; exact absurd hd (by simp)
  · rw [h9] at hd; exact absurd hd (by simp)
  · exact hpos rest

theorem isBadValue_false (v : String) (h1 : v ≠ "") (h2 : startsWithDash v = false) :
    isBadValue v = false := by
  simp [isBadValue, h1, h2]

/-- C17: the argument list of the unit test, with any texts that are not
empty and do not start with a dash in the five places. -/
theorem parse_all_options (inp out cfg mc pc : String)
    (hinp : inp ≠ "" ∧ startsWithDash inp = false)
    (hout : out ≠ "" ∧ startsWithDash out = false)
    (hcfg : cfg ≠ "" ∧ startsWithDash cfg = false)
    (hmc : mc ≠ "" ∧ startsWithDash mc = false)
    (hpc : pc ≠ "" ∧ startsWithDash pc = false) :
    parseArgs [inp, "-o", out, "--config", cfg, "--mermaid-config", mc,
        "--puppeteer-config", pc, "--verbose", "--keep-temp"] =
      Except.ok
        { inputPath := inp
          outputPath := some out
          configPath := some cfg
          mermaidConfigPath := some mc
          puppeteerConfigPath := some pc
          verbose := true
          keepTemp := true
          help := false
          version := false } := by
  have b1 := isBadValue_false out hout.1 hout.2
  have b2 := isBadValue_false cfg hcfg.1 hcfg.2
  have b3 := isBadValue_false mc hmc.1 hmc.2
  have b4 := isBadValue_false pc hpc.1 hpc.2
  unfold parseArgs
  rw [parseLoop_positional _ _ _ _ hinp.2]
  rw [parseLoop.eq_3]
  simp only [b1, String.reduceEq, or_false, false_or, or_self, if_false, if_true,
    Bool.false_eq_true]
  rw [parseLoop.eq_3]
  simp only [b2, String.reduceEq, or_false, false_or, or_self, if_false, if_true,
    Bool.false_eq_true]
  rw [parseLoop.eq_3]
  simp only [b3, String.reduceEq, or_false, false_or, or_self, if_false, if_true,
    Bool.false_eq_true]
  rw [parseLoop.eq_3]
  simp only [b4, String.reduceEq, or_false, false_or, or_self, if_false, if_true,
    Bool.false_eq_true]
  rw [parseLoop.eq_3]
  simp only [String.reduceEq, or_false, false_or, or_self, if_false, if_true]
  rw [parseLoop.eq_2]
  simp only [String.reduceEq, or_false, false_or, or_self, if_false, if_true]
  rw [parseLoop.eq_1]
  simp [CliOptions.initial]

/-- An instance of `parse_all_options`: the texts of the unit test. -/
theorem parse_all_options_witness :
    parseArgs ["input.md", "-o", "out.pdf", "--config", "config.cjs", "--mermaid-config",
        "mermaid.json", "--puppeteer-config", "puppeteer.json", "--verbose", "--keep-temp"] =
      Except.ok
        { inputPath := "input.md"
          outputPath := some "out.pdf"
          configPath := some "config.cjs"
          mermaidConfigPath := some "mermaid.json"
          puppeteerConfigPath := some "puppeteer.json"
          verbose := true
          keepTemp := true
          help := false
          version := false } :=
  parse_all_options "input.md" "out.pdf" "config.cjs" "mermaid.json" "puppeteer.json"
    (by decide) (by decide) (by decide) (by decide) (by decide)

/-! ## The input file -/

/-- The paths the pipeline itself may remove: the output path of a failed
run, and without `keepTemp` the two temp paths with what lies below them.
Every other path ends as the phases left it. -/
theorem convert_frame (env : Env) (options : ConvertOptions) (token : String) (fs : FS)
    (c : Str) (hvalid : fs (workspace env options token).inputPath = some (Node.file c))
    (p : Path) (hout : p ≠ (workspace env options token).outputPath)
    (ht1 : p ≠ (workspace env options token).tempMarkdownPath)
    (hb1 : isBelow (workspace env options token).tempMarkdownPath p = false)
    (ht2 : p ≠ (workspace env options token).tempArtefactsDir)
    (hb2 : isBelow (workspace env options token).tempArtefactsDir p = false) :
    (convertMarkdownToPdf env options token fs).2 p =
      (tryBody env options (workspace env options token) fs).2 p := by
  rw [convert_snd_of_valid env options token fs c hvalid]
  split_ifs
  · rw [rm_other _ _ _ _ _ _ ht2 hb2, rm_other _ _ _ _ _ _ ht1 hb1]
    exact tryCatch_snd_other env options _ fs p hout
  · exact tryCatch_snd_other env options _ fs p hout

/-- C18 as stated fails: with the input path given as output path too, a
run that fails (here the diagram does not parse) removes the input file,
which the phases had left alone. -/
theorem failed_run_removes_input :
    (workspace (demoEnv false 1) { demoOptions true with outputPath := some "/doc/a.md" }
      "1-2-ab").inputPath = "/doc/a.md" ∧
    demoFS "/doc/a.md" = some (Node.file "# A\n".toList) ∧
    (tryBody (demoEnv false 1) { demoOptions true with outputPath := some "/doc/a.md" }
      (workspace (demoEnv false 1) { demoOptions true with outputPath := some "/doc/a.md" }
        "1-2-ab") demoFS).2 "/doc/a.md" = some (Node.file "# A\n".toList) ∧
    (convertMarkdownToPdf (demoEnv false 1)
      { demoOptions true with outputPath := some "/doc/a.md" } "1-2-ab" demoFS).2 "/doc/a.md"
      = none := by
  refine ⟨rfl, rfl, rfl, rfl⟩

/-- C18, amended: when the output path is not the input path, the temp
paths are not the input path nor above it, and the phases leave the input
file alone, the input file is there with its content after the run; and the
pipeline itself removes nothing but the output path of a failed run and the
temp paths with what lies below them. -/
theorem input_preserved (env : Env) (options : ConvertOptions) (token : String) (fs : FS)
    (c : Str) (hvalid : fs (workspace env options token).inputPath = some (Node.file c))
    (hout : (workspace env options token).inputPath ≠ (workspace env options token).outputPath)
    (ht1 : (workspace env options token).inputPath ≠
      (workspace env options token).tempMarkdownPath)
    (hb1 : isBelow (workspace env options token).tempMarkdownPath
      (workspace env options token).inputPath = false)
    (ht2 : (workspace env options token).inputPath ≠
      (workspace env options token).tempArtefactsDir)
    (hb2 : isBelow (workspace env options token).tempArtefactsDir
      (workspace env options token).inputPath = false)
    (hphases : (tryBody env options (workspace env options token) fs).2
      (workspace env options token).inputPath = fs (workspace env options token).inputPath) :
    (convertMarkdownToPdf env options token fs).2 (workspace env options token).inputPath
      = some (Node.file c) ∧
    (∀ p : Path, p ≠ (workspace env options token).outputPath →
      p ≠ (workspace env options token).tempMarkdownPath →
      isBelow (workspace env options token).tempMarkdownPath p = false →
      p ≠ (workspace env options token).tempArtefactsDir →
      isBelow (workspace env options token).tempArtefactsDir p = false →
      (convertMarkdownToPdf env options token fs).2 p =
        (tryBody env options (workspace env options token) fs).2 p) := by
  constructor
  · rw [convert_frame env options token fs c hvalid _ hout ht1 hb1 ht2 hb2, hphases, hvalid]
  · intro p h1 h2 h3 h4 h5
    exact convert_frame env options token fs c hvalid p h1 h2 h3 h4 h5

/-- An instance of `input_preserved`: the successful conversion of
`/doc/a.md` to `/doc/a.pdf`. -/
theorem input_preserved_witness :
    (convertMarkdownToPdf (demoEnv false 0) (demoOptions false) "1-2-ab" demoFS).2
      (workspace (demoEnv false 0) (demoOptions false) "1-2-ab").inputPath
      = some (Node.file "# A\n".toList) :=
  (input_preserved (demoEnv false 0) (demoOptions false) "1-2-ab" demoFS "# A\n".toList
    rfl (by decide) (by decide) (by decide) (by decide) (by decide) rfl).1

end MdMmdPdf
